import Mathlib

/-!
Verification development for the move-selection engine of the
`nkeywal/chess` endgame trainer.

The engine selects the computer's move among tablebase-labelled candidate
moves.  The repository contains five specialised policies
(`kbpKbPolicy`, `krKpPolicy`, `krpKrPolicy` in the unnamed module,
`krKrpPolicy` in `policy_kr_krp.js`, `kpKpPolicy` in `policy_kp_kp.js`),
a fallback `defaultPolicy` and the orchestrator `selectComputerMove`
(both in `trivial_endgames.js`).

Modelling conventions:
* JavaScript strings are Lean `String`s; a missing (`undefined`/`null`)
  string field is `Option String` (or the empty string where the source
  only tests truthiness, as for `san`).
* A move's `dtm` field is `Option Int`: `none` models a missing or
  non-finite value (`Number.isFinite(m.dtm)` is `false` exactly on
  `none`).
* Chebyshev distances that the source can set to `Infinity` are
  `WithTop Nat` (`⊤` = `Infinity`).
* `analyzePosition fen uci` simulates the candidate move on a chess.js
  board and probes the resulting position.  The board probing is the
  external rules-engine collaborator; it is modelled as an abstract
  oracle `analyze : String → Option F` (one per policy, `F` being the
  exact feature record the source returns, `none` modelling the `null`
  returns for rejected moves).  Every theorem below is universally
  quantified over `analyze`, hence holds in particular for the real
  extractor.
* JavaScript's stable `Array.prototype.sort(cmp)` is modelled by the
  stable `List.insertionSort` on the relation `cmp a b ≤ 0`.
-/

/-- Result of a candidate move from the mover's perspective. -/
inductive Outcome
  | WIN
  | DRAW
  | LOSS
deriving DecidableEq, Repr

/-- Does the character list `pat` occur at the head of `hay`? -/
def startsWithL : List Char → List Char → Bool
  | _, [] => true
  | [], _ :: _ => false
  | c :: cs, d :: ds => c == d && startsWithL cs ds

/-- Does `pat` occur as a contiguous sublist of `hay`?  Models
JavaScript `String.prototype.includes`. -/
def containsSub : List Char → List Char → Bool
  | [], pat => startsWithL [] pat
  | h :: t, pat => startsWithL (h :: t) pat || containsSub t pat

/-- JavaScript `s.includes(sub)` (substring containment). -/
def strIncludes (s sub : String) : Bool :=
  containsSub s.toList sub.toList

/-- JavaScript `s.toLowerCase()`: lower-case every character. -/
def strToLower (s : String) : String :=
  String.mk (s.data.map Char.toLower)

/-- Shared helper `getMoverResult` (identical in all five policy files):
the Lichess tablebase `move.category` describes the side to move AFTER
the move; invert it to the mover's result.  A missing category is
treated as the empty string (`category || ""`). -/
def getMoverResult (category : Option String) : Outcome :=
  let cat := strToLower (category.getD "")
  if strIncludes cat "loss" then Outcome.WIN
  else if strIncludes cat "draw" then Outcome.DRAW
  else if strIncludes cat "win" then Outcome.LOSS
  else Outcome.DRAW

/-- Function `tbMoveCategoryToMoverWdl` from `trivial_endgames.js`: same inversion
but onto the numeric scale -2 (mover wins) / 0 (draw) / 2 (mover loses);
unknown categories default to 0. -/
def tbMoveCategoryToMoverWdl (category : Option String) : Int :=
  let c := strToLower (category.getD "")
  if strIncludes c "loss" then -2
  else if strIncludes c "draw" then 0
  else if strIncludes c "win" then 2
  else 0

/-- One oracle-labelled move as delivered by the tablebase
(`tbData.moves` entries).  `san` is the empty string when absent (the
source only tests its truthiness). -/
structure TbMove where
  uci : String
  san : String
  category : Option String
  dtm : Option Int
  checkmate : Bool
deriving DecidableEq, Repr

/-- The tablebase payload: `moves` is `none` when the field is missing. -/
structure TbData where
  moves : Option (List TbMove)
deriving DecidableEq, Repr

/-- Input of the selection engine (`{ fen, endgameKey, tbData }`). -/
structure Input where
  fen : String
  endgameKey : String
  tbData : Option TbData
deriving DecidableEq, Repr

/-- Decorated candidate, as built by each policy from a `TbMove`
(`{ original, uci, outcome, dtm, features: null }`; the features are
attached later and tracked separately here). -/
structure Cand where
  original : TbMove
  uci : String
  outcome : Outcome
  dtm : Option Nat
deriving DecidableEq, Repr

/-- Candidate `dtm` normalization used by `kbpKbPolicy` and
`krpKrPolicy`: `Number.isFinite(m.dtm) ? Math.abs(m.dtm) : null`. -/
def dtmPlain (m : TbMove) : Option Nat :=
  m.dtm.map Int.natAbs

/-- Candidate `dtm` normalization used by `krKrpPolicy`, `kpKpPolicy`
and `krKpPolicy`:
`(m.checkmate || m.dtm === 0) ? 0 : (Number.isFinite(m.dtm) ? Math.abs(m.dtm) : null)`. -/
def dtmCm (m : TbMove) : Option Nat :=
  if m.checkmate || m.dtm == some 0 then some 0 else m.dtm.map Int.natAbs

/-- Build one decorated candidate from a tablebase move. -/
def mkCand (dtmOf : TbMove → Option Nat) (m : TbMove) : Cand :=
  { original := m
    uci := m.uci
    outcome := getMoverResult m.category
    dtm := dtmOf m }

/-- The candidate list of `kbpKbPolicy` (`tbData.moves.map(...)`). -/
def kbpKbCandidates (moves : List TbMove) : List Cand :=
  moves.map (mkCand dtmPlain)

/-- The candidate list of `krpKrPolicy`. -/
def krpKrCandidates (moves : List TbMove) : List Cand :=
  moves.map (mkCand dtmPlain)

/-- The candidate list of `krKrpPolicy`. -/
def krKrpCandidates (moves : List TbMove) : List Cand :=
  moves.map (mkCand dtmCm)

/-- The candidate list of `kpKpPolicy`. -/
def kpKpCandidates (moves : List TbMove) : List Cand :=
  moves.map (mkCand dtmCm)

/-- The candidate list of `krKpPolicy`. -/
def krKpCandidates (moves : List TbMove) : List Cand :=
  moves.map (mkCand dtmCm)

/-- Target-class selection shared by all five policies: WIN if any
candidate is WIN, else DRAW if any is DRAW, else LOSS; the working set
is the candidates of that class. -/
def selectTarget (candidates : List Cand) : Outcome × List Cand :=
  if candidates.any (fun c => c.outcome == Outcome.WIN) then
    (Outcome.WIN, candidates.filter (fun c => c.outcome == Outcome.WIN))
  else if candidates.any (fun c => c.outcome == Outcome.DRAW) then
    (Outcome.DRAW, candidates.filter (fun c => c.outcome == Outcome.DRAW))
  else
    (Outcome.LOSS, candidates.filter (fun c => c.outcome == Outcome.LOSS))

/-- One non-emptying filter stage, the shape
`if (C.some(p)) { C = C.filter(p); }` used by every hard-constraint and
preference stage of the cascades. -/
def keepIf {α : Type} (p : α → Bool) (C : List α) : List α :=
  if C.any p then C.filter p else C

/-- The `GAP_BREAK` constant (12 half-moves), identical in all five
policy files. -/
def GAP_BREAK : Nat := 12

/-- Descending numeric sort, modelling `.sort((a, b) => b - a)`. -/
def sortDescNat (l : List Nat) : List Nat :=
  l.insertionSort (fun a b => b ≤ a)

/-- The threshold scan of the LOSS anti-collapse filter: walk adjacent
pairs of the (descending) value list; on the first gap of at least
`GAP_BREAK` return the upper value, otherwise the supplied default
(the maximum). -/
def findGap (dflt : Nat) : List Nat → Nat
  | x :: y :: rest => if GAP_BREAK ≤ x - y then x else findGap dflt (y :: rest)
  | _ => dflt

/-- Threshold of a descending value list: default is its head. -/
def gapThreshold : List Nat → Option Nat
  | [] => none
  | d :: rest => some (findGap d (d :: rest))

/-- The LOSS anti-collapse filter, identical in all five policies: keep
the high-DTM plateau before the first clear gap, but only if that keeps
at least one candidate. -/
def lossFilter (C : List Cand) : List Cand :=
  let dtmValues := sortDescNat (C.filterMap (fun c => c.dtm))
  match gapThreshold dtmValues with
  | none => C
  | some threshold =>
    let filtered := C.filter (fun c =>
      match c.dtm with
      | some d => threshold ≤ d
      | none => false)
    if filtered.isEmpty then C else filtered

/-- A candidate's dtm with a missing value treated as `+∞`
(`a.dtm !== null ? a.dtm : Infinity`). -/
def dtmVal (c : Cand) : WithTop Nat :=
  match c.dtm with
  | some d => (d : WithTop Nat)
  | none => ⊤

/-- Sign-model of JavaScript `localeCompare` on canonical strings. -/
def cmpStr (a b : String) : Int :=
  if a < b then -1 else if b < a then 1 else 0

/-- The WIN comparator shared by all five policies: ascending dtm
(missing treated as `+∞`), ties by move identifier.  `winLe a b` states
that the comparator orders `a` no later than `b`. -/
def winLe (a b : Cand) : Bool :=
  if dtmVal a ≠ dtmVal b then decide (dtmVal a < dtmVal b)
  else decide (a.uci ≤ b.uci)

/-- The WIN branch shared by all five policies: stable sort by `winLe`. -/
def winSort (C : List Cand) : List Cand :=
  C.insertionSort (fun a b => winLe a b = true)

/-- The candidate set after outcome classification and the
outcome-specific metric filter (WIN keeps the class set — the WIN sort
only reorders it; LOSS applies the anti-collapse filter; DRAW passes
through). -/
def stage2 (candidates : List Cand) : List Cand :=
  let target := (selectTarget candidates).1
  let C := (selectTarget candidates).2
  if target == Outcome.WIN then C
  else if target == Outcome.LOSS then lossFilter C
  else C

/-- A candidate with its computed feature record (`cand.features = feats`). -/
structure ACand (F : Type) where
  cand : Cand
  features : F
deriving DecidableEq, Repr

/-- Feature analysis loop shared by all five policies: keep the
candidates for which the extractor produced a feature record. -/
def analyzeAll {F : Type} (analyze : String → Option F) (C : List Cand) : List (ACand F) :=
  C.filterMap (fun c => (analyze c.uci).map (fun f => ACand.mk c f))

/-- The `phaseRank` helper shared by the policies. -/
def phaseRank (phase : String) : Nat :=
  if phase == "C" then 3
  else if phase == "B" then 2
  else if phase == "A" then 1
  else 0

/-- The `preferBool` comparator constructor shared by the policies:
candidates with the feature sort before candidates without it. -/
def prefer {F : Type} (get : F → Bool) (a b : ACand F) : Int :=
  let av := get a.features
  let bv := get b.features
  if av == bv then 0 else if av then -1 else 1

/-- Apply an ordered list of comparators, returning the first nonzero
answer (the criteria loop of the policies' final sorts). -/
def cmpChain {α : Type} (criteria : List (α → α → Int)) (a b : α) : Int :=
  match criteria with
  | [] => 0
  | f :: rest =>
    let d := f a b
    if d ≠ 0 then d else cmpChain rest a b

/-- Sign of the JavaScript subtraction of two extended distances, used
only when they differ. -/
def cmpW (x y : WithTop Nat) : Int :=
  if x < y then -1 else 1

/-! ### Feature records

One structure per policy, with exactly the fields of the object returned
by the corresponding `analyzePosition`.  Distances that the source can
set to `Infinity` are `WithTop Nat`; fields that are `null` while the
pawn is gone are `Option` types. -/

/-- Features computed by the KBP-KB `analyzePosition`. -/
structure KbpKbF where
  pawnGone : Bool
  pawnRank : Option Int
  isRookPawn : Bool
  wrongBishopForRookPawn : Bool
  promoSq : Option String
  blockSq : Option String
  pawnCanAdvanceNow : Bool
  pawnPromotesNow : Bool
  BBControlsPawn : Bool
  BBControlsBlock : Bool
  BBControlsPromo : Bool
  WBControlsPromo : Bool
  BKDistToPawn : WithTop Nat
  BKDistToPromo : WithTop Nat
  BKDistToBlock : WithTop Nat
  BKOnBlock : Bool
  BKOnPromo : Bool
  threatensPawn : Bool
  attacksWhiteBishop : Bool
  SafeCheck : Bool
  bishopHang : Bool
  bishopLost : Bool
  bishopTradeOffered : Bool
  Useful : Bool
  phase : String
  whiteMovesCount : Nat
deriving DecidableEq, Repr

/-- Features computed by the KR-KRP `analyzePosition`. -/
structure KrKrpF where
  R_hang : Bool
  Trade : Bool
  PawnTakeSafe : Bool
  PawnKingTakeSafe : Bool
  SafeCheck : Bool
  PawnDef : Bool
  Behind : Bool
  CutoffOK : Bool
  Useful : Bool
  phase : String
deriving DecidableEq, Repr

/-- Features computed by the KP-KP `analyzePosition`. -/
structure KpKpF where
  whiteCanCaptureBPNow : Bool
  whiteKingCanCaptureBPNow : Bool
  whitePawnCanCaptureBPNow : Bool
  bpFreeCaptureExists : Bool
  bpFreeKingCaptureExists : Bool
  bpFreePawnCaptureExists : Bool
  oppositionGoodForBlack : Bool
  BK_attacks_WP : Bool
  kingCloserToBP : Bool
  kingCloserToWP : Bool
  BKInFrontOfBP : Bool
  bpRank : Int
  wpRank : Int
  bpSteps : Int
  wpSteps : Int
  whiteCatchesBP : Bool
  blackCatchesWP : Bool
  Useful : Bool
  phase : String
deriving DecidableEq, Repr

/-- Features computed by the KR-KP `analyzePosition`. -/
structure KrKpF where
  promoted : Bool
  pawnGone : Bool
  pawnRank : Option Int
  isRookPawn : Bool
  whiteCanCapturePawnNow : Bool
  safePawnCaptureExists : Bool
  safeKingCaptureExists : Bool
  safeRookCaptureExists : Bool
  pawnPoisoned : Bool
  pawnDefByKing : Bool
  BKInFrontOfPawn : Bool
  BKDistToPawn : WithTop Nat
  BKDistToPromo : WithTop Nat
  BKDistToBlock : WithTop Nat
  kingThreatensRook : Bool
  whiteCheckingMovesCount : Nat
  Useful : Bool
  phase : String
deriving DecidableEq, Repr

/-- Features computed by the KRP-KR `analyzePosition`. -/
structure KrpKrF where
  pawnGone : Bool
  R_hang : Bool
  Trade : Bool
  SafeCheck : Bool
  safeAttackWR : Bool
  rookAttacksPawn : Bool
  rookBehindPawn : Bool
  rookAttacksPromo : Bool
  rookAttacksBlock : Bool
  rookOnShortSide : Bool
  BKInFrontOfPawn : Bool
  BKDistToPromo : WithTop Nat
  BKDistToBlock : WithTop Nat
  WKDistToPawn : WithTop Nat
  WKDistToBlock : WithTop Nat
  whitePawnPromotesNow : Bool
  whitePawnAdvancesNow : Bool
  Useful : Bool
  phase : String
  pawnRank : Option Int
deriving DecidableEq, Repr

/-! ### Constraint cascades -/

/-- Hard-constraint cascade of `kbpKbPolicy` (stages D1-D5). -/
def kbpKbCascade (target : Outcome) (C0 : List (ACand KbpKbF)) : List (ACand KbpKbF) :=
  let C1 := keepIf (fun c => !c.features.bishopLost) C0
  let C2 := keepIf (fun c => !c.features.pawnPromotesNow) C1
  let C3 := keepIf (fun c => !c.features.bishopTradeOffered) C2
  let C4 := if target == Outcome.DRAW then keepIf (fun c => !c.features.pawnGone) C3 else C3
  keepIf (fun c => c.features.Useful) C4

/-- Hard-constraint cascade of `krKrpPolicy` (stages D1, D2K, D2, D3,
D4) followed by its phase preference (`C > B > A`). -/
def krKrpCascade (C0 : List (ACand KrKrpF)) : List (ACand KrKrpF) :=
  let C1 := keepIf (fun c => !c.features.R_hang) C0
  let C2 := keepIf (fun c => !c.features.PawnKingTakeSafe) C1
  let C3 := keepIf (fun c => !c.features.PawnTakeSafe) C2
  let C4 := keepIf (fun c => !c.features.Trade) C3
  let C5 := keepIf (fun c => c.features.Useful) C4
  let Cphase := C5.filter (fun c => c.features.phase == "C")
  if !Cphase.isEmpty then Cphase
  else
    let Bphase := C5.filter (fun c => c.features.phase == "B")
    if !Bphase.isEmpty then Bphase else C5

/-- Hard-constraint cascade of `kpKpPolicy` (stage D1 with its
unavoidable-capture sub-cascade, stage D2) followed by its phase
preference (`C > B > A`). -/
def kpKpCascade (C0 : List (ACand KpKpF)) : List (ACand KpKpF) :=
  let C1 :=
    if C0.any (fun c => !c.features.whiteCanCaptureBPNow) then
      C0.filter (fun c => !c.features.whiteCanCaptureBPNow)
    else
      let Ca := keepIf (fun c => !c.features.whitePawnCanCaptureBPNow) C0
      let Cb := keepIf (fun c => !c.features.bpFreeCaptureExists) Ca
      keepIf (fun c => !c.features.whiteKingCanCaptureBPNow) Cb
  let C2 := keepIf (fun c => c.features.Useful) C1
  let Cphase := C2.filter (fun c => c.features.phase == "C")
  if !Cphase.isEmpty then Cphase
  else
    let Bphase := C2.filter (fun c => c.features.phase == "B")
    if !Bphase.isEmpty then Bphase else C2

/-- Cascade of `krKpPolicy`: promotion avoidance, stage D1 with its
unavoidable-capture sub-cascade, stage D2, then the poisoned-pawn and
rook-threat preferences. -/
def krKpCascade (target : Outcome) (C0 : List (ACand KrKpF)) : List (ACand KrKpF) :=
  let C1 :=
    if target != Outcome.WIN && C0.any (fun c => !c.features.promoted) then
      C0.filter (fun c => !c.features.promoted)
    else C0
  let C2 :=
    if C1.any (fun c => !c.features.safePawnCaptureExists) then
      C1.filter (fun c => !c.features.safePawnCaptureExists)
    else
      let Ca := keepIf (fun c => !c.features.safeRookCaptureExists) C1
      keepIf (fun c => !c.features.safeKingCaptureExists) Ca
  let C3 := keepIf (fun c => c.features.Useful) C2
  let C4 :=
    if C3.any (fun c => c.features.pawnPoisoned) then
      let poisoned := C3.filter (fun c => c.features.pawnPoisoned)
      if !poisoned.isEmpty then poisoned else C3
    else C3
  if C4.any (fun c => c.features.kingThreatensRook) then
    let forcing := C4.filter (fun c => c.features.kingThreatensRook)
    if !forcing.isEmpty then forcing else C4
  else C4

/-- Hard-constraint cascade of `krpKrPolicy` (stages D1-D4) followed by
its DRAW-only keep-the-pawn preference. -/
def krpKrCascade (target : Outcome) (C0 : List (ACand KrpKrF)) : List (ACand KrpKrF) :=
  let C1 := keepIf (fun c => !c.features.R_hang) C0
  let C2 := keepIf (fun c => !c.features.whitePawnPromotesNow) C1
  let C3 := keepIf (fun c => !c.features.Trade) C2
  let C4 := keepIf (fun c => c.features.Useful) C3
  if target == Outcome.DRAW then
    let keepPawn := C4.filter (fun c => !c.features.pawnGone)
    if !keepPawn.isEmpty then keepPawn else C4
  else C4

/-! ### Final comparators

Each models the policy's final `C.sort((a, b) => ...)` callback; the
sign of each JavaScript numeric return is reproduced (`cmpW` for
extended distances, explicit casts for counts and ranks). -/

/-- Final comparator of `kbpKbPolicy`. -/
def kbpKbCmp (target : Outcome) (a b : ACand KbpKbF) : Int :=
  let af := a.features
  let bf := b.features
  let d0 : Int := if target == Outcome.LOSS then prefer (fun f => f.SafeCheck) a b else 0
  if d0 ≠ 0 then d0
  else
    let mid : Int :=
      if !af.pawnGone && !bf.pawnGone then
        let prA := phaseRank af.phase
        let prB := phaseRank bf.phase
        if prA ≠ prB then (prB : Int) - (prA : Int)
        else
          let dbr : Int :=
            if af.wrongBishopForRookPawn && bf.wrongBishopForRookPawn then
              if af.BKOnPromo ≠ bf.BKOnPromo then (if af.BKOnPromo then -1 else 1)
              else if af.BKDistToPromo ≠ bf.BKDistToPromo then cmpW af.BKDistToPromo bf.BKDistToPromo
              else
                cmpChain [prefer (fun f => f.SafeCheck), prefer (fun f => f.threatensPawn),
                  prefer (fun f => f.attacksWhiteBishop)] a b
            else
              let dgen : Int :=
                if af.phase == "C" then
                  cmpChain [prefer (fun f => f.BBControlsPromo), prefer (fun f => f.BKOnPromo),
                    prefer (fun f => f.BBControlsBlock), prefer (fun f => f.SafeCheck),
                    prefer (fun f => f.threatensPawn)] a b
                else
                  cmpChain [prefer (fun f => f.BKOnBlock), prefer (fun f => f.BBControlsBlock),
                    prefer (fun f => f.threatensPawn), prefer (fun f => f.SafeCheck),
                    prefer (fun f => f.attacksWhiteBishop)] a b
              if dgen ≠ 0 then dgen
              else if af.BKDistToBlock ≠ bf.BKDistToBlock then cmpW af.BKDistToBlock bf.BKDistToBlock
              else if af.BKDistToPromo ≠ bf.BKDistToPromo then cmpW af.BKDistToPromo bf.BKDistToPromo
              else 0
          if dbr ≠ 0 then dbr
          else if af.whiteMovesCount ≠ bf.whiteMovesCount then
            (bf.whiteMovesCount : Int) - (af.whiteMovesCount : Int)
          else 0
      else
        cmpChain [prefer (fun f => f.SafeCheck), prefer (fun f => f.attacksWhiteBishop)] a b
    if mid ≠ 0 then mid else cmpStr a.cand.uci b.cand.uci

/-- Criteria vector of `krKrpPolicy`, chosen from the target and the
phase of the narrowed set. -/
def krKrpCriteria (target : Outcome) (phase : String) :
    List (ACand KrKrpF → ACand KrKrpF → Int) :=
  (if target == Outcome.LOSS then [prefer (fun f => f.SafeCheck)] else []) ++
  (if phase == "A" then
    [prefer (fun f => f.CutoffOK), prefer (fun f => f.PawnDef),
      prefer (fun f => f.SafeCheck), prefer (fun f => f.Behind)]
  else if phase == "B" then
    [prefer (fun f => f.Behind), prefer (fun f => f.PawnDef),
      prefer (fun f => f.CutoffOK), prefer (fun f => f.SafeCheck)]
  else
    [prefer (fun f => f.PawnDef), prefer (fun f => f.Behind),
      prefer (fun f => f.CutoffOK), prefer (fun f => f.SafeCheck)])

/-- Final comparator of `krKrpPolicy`. -/
def krKrpCmp (target : Outcome) (phase : String) (a b : ACand KrKrpF) : Int :=
  let d := cmpChain (krKrpCriteria target phase) a b
  if d ≠ 0 then d else cmpStr a.cand.uci b.cand.uci

/-- Criteria vector of `kpKpPolicy`, chosen from the target. -/
def kpKpCriteria (target : Outcome) : List (ACand KpKpF → ACand KpKpF → Int) :=
  if target == Outcome.LOSS then
    [prefer (fun f => f.oppositionGoodForBlack), prefer (fun f => f.BK_attacks_WP),
      prefer (fun f => f.BKInFrontOfBP), prefer (fun f => f.kingCloserToWP),
      prefer (fun f => f.kingCloserToBP)]
  else
    [prefer (fun f => f.oppositionGoodForBlack), prefer (fun f => f.BK_attacks_WP),
      prefer (fun f => f.BKInFrontOfBP), prefer (fun f => f.kingCloserToBP),
      prefer (fun f => f.kingCloserToWP)]

/-- Final comparator of `kpKpPolicy`: criteria, then more advanced black
pawn (smaller rank), then identifier. -/
def kpKpCmp (target : Outcome) (a b : ACand KpKpF) : Int :=
  let d := cmpChain (kpKpCriteria target) a b
  if d ≠ 0 then d
  else
    let ra := a.features.bpRank
    let rb := b.features.bpRank
    if ra ≠ rb then ra - rb else cmpStr a.cand.uci b.cand.uci

/-- Final comparator of `krKpPolicy`. -/
def krKpCmp (a b : ACand KrKpF) : Int :=
  let af := a.features
  let bf := b.features
  let prA := phaseRank af.phase
  let prB := phaseRank bf.phase
  if prA ≠ prB then (prB : Int) - (prA : Int)
  else
    let d1 := cmpChain [prefer (fun f => f.BKInFrontOfPawn),
      prefer (fun f => f.pawnDefByKing)] a b
    if d1 ≠ 0 then d1
    else
      let d2 : Int :=
        if af.isRookPawn && bf.isRookPawn then
          if af.BKDistToPromo ≠ bf.BKDistToPromo then cmpW af.BKDistToPromo bf.BKDistToPromo
          else 0
        else 0
      if d2 ≠ 0 then d2
      else if af.whiteCheckingMovesCount ≠ bf.whiteCheckingMovesCount then
        (af.whiteCheckingMovesCount : Int) - (bf.whiteCheckingMovesCount : Int)
      else
        let d3 : Int :=
          match af.pawnRank, bf.pawnRank with
          | some ra, some rb => if ra ≠ rb then ra - rb else 0
          | _, _ => 0
        if d3 ≠ 0 then d3 else cmpStr a.cand.uci b.cand.uci

/-- Final comparator of `krpKrPolicy`. -/
def krpKrCmp (target : Outcome) (a b : ACand KrpKrF) : Int :=
  let af := a.features
  let bf := b.features
  let d0 : Int := if target == Outcome.LOSS then prefer (fun f => f.SafeCheck) a b else 0
  if d0 ≠ 0 then d0
  else
    let mid : Int :=
      if !af.pawnGone && !bf.pawnGone then
        let prA := phaseRank af.phase
        let prB := phaseRank bf.phase
        if prA ≠ prB then (prB : Int) - (prA : Int)
        else
          let dbr : Int :=
            if af.phase == "C" then
              cmpChain [prefer (fun f => f.rookAttacksPromo), prefer (fun f => f.rookAttacksBlock),
                prefer (fun f => f.SafeCheck), prefer (fun f => f.safeAttackWR),
                prefer (fun f => f.rookBehindPawn), prefer (fun f => f.BKInFrontOfPawn)] a b
            else if af.phase == "B" then
              cmpChain [prefer (fun f => f.rookBehindPawn), prefer (fun f => f.rookOnShortSide),
                prefer (fun f => f.SafeCheck), prefer (fun f => f.safeAttackWR),
                prefer (fun f => f.rookAttacksPawn), prefer (fun f => f.BKInFrontOfPawn)] a b
            else
              cmpChain [prefer (fun f => f.SafeCheck), prefer (fun f => f.safeAttackWR),
                prefer (fun f => f.rookAttacksPawn), prefer (fun f => f.rookOnShortSide),
                prefer (fun f => f.BKInFrontOfPawn)] a b
          if dbr ≠ 0 then dbr
          else if af.BKDistToPromo ≠ bf.BKDistToPromo then cmpW af.BKDistToPromo bf.BKDistToPromo
          else if af.BKDistToBlock ≠ bf.BKDistToBlock then cmpW af.BKDistToBlock bf.BKDistToBlock
          else if af.WKDistToPawn ≠ bf.WKDistToPawn then cmpW bf.WKDistToPawn af.WKDistToPawn
          else if af.WKDistToBlock ≠ bf.WKDistToBlock then cmpW bf.WKDistToBlock af.WKDistToBlock
          else 0
      else
        cmpChain [prefer (fun f => f.SafeCheck), prefer (fun f => f.safeAttackWR)] a b
    if mid ≠ 0 then mid else cmpStr a.cand.uci b.cand.uci

/-! ### The five policies -/

/-- Policy `kbpKbPolicy` (KBP-KB module): guard, decorate, classify, WIN
shortest-dtm, LOSS anti-collapse, feature analysis, cascade, final
sort.  `analyze` abstracts `analyzePosition fen`. -/
def kbpKbPolicy (analyze : String → Option KbpKbF) (input : Input) : Option TbMove :=
  match input.tbData with
  | none => none
  | some td =>
    match td.moves with
    | none => none
    | some moves =>
      if moves.isEmpty then none
      else
        let candidates := kbpKbCandidates moves
        let target := (selectTarget candidates).1
        let C := (selectTarget candidates).2
        if target == Outcome.WIN then
          (winSort C).head?.map (fun c => c.original)
        else
          let C := if target == Outcome.LOSS then lossFilter C else C
          let analyzed := analyzeAll analyze C
          if analyzed.isEmpty then C.head?.map (fun c => c.original)
          else
            let C2 := kbpKbCascade target analyzed
            (C2.insertionSort (fun a b => kbpKbCmp target a b ≤ 0)).head?.map
              (fun x => x.cand.original)

/-- Policy `krKrpPolicy` (`policy_kr_krp.js`). -/
def krKrpPolicy (analyze : String → Option KrKrpF) (input : Input) : Option TbMove :=
  match input.tbData with
  | none => none
  | some td =>
    match td.moves with
    | none => none
    | some moves =>
      if moves.isEmpty then none
      else
        let candidates := krKrpCandidates moves
        let target := (selectTarget candidates).1
        let C := (selectTarget candidates).2
        if target == Outcome.WIN then
          (winSort C).head?.map (fun c => c.original)
        else
          let C := if target == Outcome.LOSS then lossFilter C else C
          let analyzed := analyzeAll analyze C
          if analyzed.isEmpty then C.head?.map (fun c => c.original)
          else
            let C2 := krKrpCascade analyzed
            let phase0 :=
              match C2.head? with
              | some c => c.features.phase
              | none => ""
            let phase := if phase0 == "" then "A" else phase0
            (C2.insertionSort (fun a b => krKrpCmp target phase a b ≤ 0)).head?.map
              (fun x => x.cand.original)

/-- Policy `kpKpPolicy` (`policy_kp_kp.js`). -/
def kpKpPolicy (analyze : String → Option KpKpF) (input : Input) : Option TbMove :=
  match input.tbData with
  | none => none
  | some td =>
    match td.moves with
    | none => none
    | some moves =>
      if moves.isEmpty then none
      else
        let candidates := kpKpCandidates moves
        let target := (selectTarget candidates).1
        let C := (selectTarget candidates).2
        if target == Outcome.WIN then
          (winSort C).head?.map (fun c => c.original)
        else
          let C := if target == Outcome.LOSS then lossFilter C else C
          let analyzed := analyzeAll analyze C
          if analyzed.isEmpty then C.head?.map (fun c => c.original)
          else
            let C2 := kpKpCascade analyzed
            (C2.insertionSort (fun a b => kpKpCmp target a b ≤ 0)).head?.map
              (fun x => x.cand.original)

/-- Policy `krKpPolicy` (KR-KP module). -/
def krKpPolicy (analyze : String → Option KrKpF) (input : Input) : Option TbMove :=
  match input.tbData with
  | none => none
  | some td =>
    match td.moves with
    | none => none
    | some moves =>
      if moves.isEmpty then none
      else
        let candidates := krKpCandidates moves
        let target := (selectTarget candidates).1
        let C := (selectTarget candidates).2
        if target == Outcome.WIN then
          (winSort C).head?.map (fun c => c.original)
        else
          let C := if target == Outcome.LOSS then lossFilter C else C
          let analyzed := analyzeAll analyze C
          if analyzed.isEmpty then C.head?.map (fun c => c.original)
          else
            let C2 := krKpCascade target analyzed
            (C2.insertionSort (fun a b => krKpCmp a b ≤ 0)).head?.map
              (fun x => x.cand.original)

/-- Policy `krpKrPolicy` (KRP-KR module). -/
def krpKrPolicy (analyze : String → Option KrpKrF) (input : Input) : Option TbMove :=
  match input.tbData with
  | none => none
  | some td =>
    match td.moves with
    | none => none
    | some moves =>
      if moves.isEmpty then none
      else
        let candidates := krpKrCandidates moves
        let target := (selectTarget candidates).1
        let C := (selectTarget candidates).2
        if target == Outcome.WIN then
          (winSort C).head?.map (fun c => c.original)
        else
          let C := if target == Outcome.LOSS then lossFilter C else C
          let analyzed := analyzeAll analyze C
          if analyzed.isEmpty then C.head?.map (fun c => c.original)
          else
            let C2 := krpKrCascade target analyzed
            (C2.insertionSort (fun a b => krpKrCmp target a b ≤ 0)).head?.map
              (fun x => x.cand.original)

/-! ### Orchestration (`trivial_endgames.js`) -/

/-- Fallback `MovePolicies.defaultPolicy`: first tablebase move; if it is a draw
for the mover, prefer the first draw move whose SAN is present and has
no capture marker. -/
def defaultPolicy (input : Input) : Option TbMove :=
  match input.tbData with
  | none => none
  | some td =>
    match td.moves with
    | none => none
    | some moves =>
      match moves with
      | [] => none
      | bestMove :: _ =>
        let bestMoverWdl := tbMoveCategoryToMoverWdl bestMove.category
        if bestMoverWdl == 0 then
          let drawMoves := moves.filter
            (fun m => tbMoveCategoryToMoverWdl m.category == 0)
          match drawMoves.find? (fun m => m.san != "" && !(strIncludes m.san "x")) with
          | some nonCapture => some nonCapture
          | none => some bestMove
        else some bestMove

/-- Orchestrator `selectComputerMove`: dispatch to the specialised policy for the
endgame key (here the already-dispatched policy is a parameter; a
thrown exception is an `Except.error`), fall back to `defaultPolicy`
when the policy throws or returns no move, and again when the selected
move fails the membership invariant check. -/
def selectComputerMove (policy : Input → Except String (Option TbMove))
    (input : Input) : Option TbMove :=
  match input.tbData with
  | none => none
  | some td =>
    match td.moves with
    | none => none
    | some moves =>
      if moves.isEmpty then none
      else
        let selectedMove : Option TbMove :=
          match policy input with
          | Except.error _ => none
          | Except.ok r => r
        let selectedMove :=
          match selectedMove with
          | none => defaultPolicy input
          | some m => some m
        let isValid :=
          match selectedMove with
          | some m => moves.any (fun x => x.uci == m.uci)
          | none => false
        if isValid then selectedMove else defaultPolicy input

/-! ### KP-KP geometry (`policy_kp_kp.js`) -/

/-- A board square: its file character and rank character (the source
stores squares as two-character strings). -/
abbrev Square : Type := Char × Char

/-- Helper `getFile`: the file character of a square (`sq[0]`). -/
def getFile (sq : Square) : Char := sq.1

/-- Helper `getFileIdx`: 0-based file index (`sq.charCodeAt(0) - 97`). -/
def getFileIdx (sq : Square) : Int := (sq.1.toNat : Int) - 97

/-- Helper `getRank`: the rank digit parsed as a number (`parseInt(sq[1], 10)`). -/
def getRank (sq : Square) : Int := (sq.2.toNat : Int) - 48

/-- Helper `kdist`: Chebyshev king distance between two squares (the source's
null-square guard is dropped: both squares are present wherever the
claims use it). -/
def kdist (a b : Square) : Nat :=
  max (getFileIdx a - getFileIdx b).natAbs (getRank a - getRank b).natAbs

/-- Helper `stepsToProm`: a pawn's remaining steps to promotion (white promotes
on rank 8, black on rank 1). -/
def stepsToProm (pawnSq : Square) (color : String) : Int :=
  let r := getRank pawnSq
  if color == "w" then 8 - r else r - 1

/-- Helper `promoSquare`: the promotion square of a pawn. -/
def promoSquare (pawnSq : Square) (color : String) : Square :=
  if color == "w" then (getFile pawnSq, '8') else (getFile pawnSq, '1')

/-- Function `kingCatchesPawnApprox`: empty-board square-rule test, with one
extra tempo when the pursuing king (the side opposite the pawn) is to
move. -/
def kingCatchesPawnApprox (kingSq pawnSq : Square) (pawnColor sideToMove : String) : Bool :=
  let steps := stepsToProm pawnSq pawnColor
  let psq := promoSquare pawnSq pawnColor
  let dist := kdist kingSq psq
  let pursuerColor := if pawnColor == "w" then "b" else "w"
  let pursuerToMove := sideToMove == pursuerColor
  let allowance : Int := if pursuerToMove then 1 else 0
  decide ((dist : Int) ≤ steps + allowance)

/-! ### Basic lemmas about the shared stages -/

theorem head?_mem {α : Type} {l : List α} {x : α} (h : l.head? = some x) : x ∈ l := by
  cases l with
  | nil => simp at h
  | cons a t =>
    simp only [List.head?] at h
    cases h
    exact List.mem_cons_self _ _

theorem exists_head? {α : Type} {l : List α} (h : l ≠ []) : ∃ x, l.head? = some x := by
  cases l with
  | nil => exact absurd rfl h
  | cons a t => exact ⟨a, rfl⟩

theorem mem_keepIf {α : Type} {p : α → Bool} {C : List α} {x : α}
    (h : x ∈ keepIf p C) : x ∈ C := by
  unfold keepIf at h
  split at h
  · exact List.mem_of_mem_filter h
  · exact h

theorem keepIf_ne_nil {α : Type} (p : α → Bool) {C : List α} (h : C ≠ []) :
    keepIf p C ≠ [] := by
  unfold keepIf
  split
  · next hany =>
    rcases List.any_eq_true.mp hany with ⟨x, hx, hp⟩
    exact List.ne_nil_of_mem (List.mem_filter.mpr ⟨hx, hp⟩)
  · exact h

theorem keepIf_eq_filter {α : Type} {p : α → Bool} {C : List α}
    (h : C.filter p ≠ []) : keepIf p C = C.filter p := by
  unfold keepIf
  rcases List.exists_mem_of_ne_nil _ h with ⟨x, hx⟩
  rcases List.mem_filter.mp hx with ⟨hxC, hpx⟩
  rw [if_pos (List.any_eq_true.mpr ⟨x, hxC, hpx⟩)]

theorem keepIf_eq_self {α : Type} {p : α → Bool} {C : List α}
    (h : C.filter p = []) : keepIf p C = C := by
  unfold keepIf
  split
  · next hany =>
    rcases List.any_eq_true.mp hany with ⟨x, hx, hp⟩
    exact absurd h (List.ne_nil_of_mem (List.mem_filter.mpr ⟨hx, hp⟩))
  · rfl

theorem insertionSort_ne_nil {α : Type} (r : α → α → Prop) [DecidableRel r]
    {l : List α} (h : l ≠ []) : l.insertionSort r ≠ [] := by
  intro hnil
  have hlen := (List.perm_insertionSort r l).length_eq
  rw [hnil] at hlen
  exact h (List.length_eq_zero.mp hlen.symm)

theorem mem_of_mem_insertionSort {α : Type} {r : α → α → Prop} [DecidableRel r]
    {l : List α} {x : α} (h : x ∈ l.insertionSort r) : x ∈ l :=
  (List.perm_insertionSort r l).subset h

theorem mem_analyzeAll {F : Type} {analyze : String → Option F} {C : List Cand}
    {x : ACand F} (h : x ∈ analyzeAll analyze C) : x.cand ∈ C := by
  unfold analyzeAll at h
  rcases List.mem_filterMap.mp h with ⟨c, hc, heq⟩
  rcases Option.map_eq_some'.mp heq with ⟨f, _, hxf⟩
  rw [← hxf]
  exact hc

theorem selectTarget_snd_mem {cands : List Cand} {c : Cand}
    (h : c ∈ (selectTarget cands).2) :
    c ∈ cands ∧ c.outcome = (selectTarget cands).1 := by
  by_cases hW : cands.any (fun c => c.outcome == Outcome.WIN) = true
  · rw [selectTarget, if_pos hW] at h ⊢
    rcases List.mem_filter.mp h with ⟨hc, hp⟩
    exact ⟨hc, by simpa using hp⟩
  · by_cases hD : cands.any (fun c => c.outcome == Outcome.DRAW) = true
    · rw [selectTarget, if_neg hW, if_pos hD] at h ⊢
      rcases List.mem_filter.mp h with ⟨hc, hp⟩
      exact ⟨hc, by simpa using hp⟩
    · rw [selectTarget, if_neg hW, if_neg hD] at h ⊢
      rcases List.mem_filter.mp h with ⟨hc, hp⟩
      exact ⟨hc, by simpa using hp⟩

theorem selectTarget_ne_nil {cands : List Cand} (h : cands ≠ []) :
    (selectTarget cands).2 ≠ [] := by
  by_cases hW : cands.any (fun c => c.outcome == Outcome.WIN) = true
  · rw [selectTarget, if_pos hW]
    rcases List.any_eq_true.mp hW with ⟨x, hx, hp⟩
    exact List.ne_nil_of_mem (List.mem_filter.mpr ⟨hx, hp⟩)
  · by_cases hD : cands.any (fun c => c.outcome == Outcome.DRAW) = true
    · rw [selectTarget, if_neg hW, if_pos hD]
      rcases List.any_eq_true.mp hD with ⟨x, hx, hp⟩
      exact List.ne_nil_of_mem (List.mem_filter.mpr ⟨hx, hp⟩)
    · rw [selectTarget, if_neg hW, if_neg hD]
      rcases List.exists_mem_of_ne_nil _ h with ⟨x, hx⟩
      have hW2 : cands.any (fun c => c.outcome == Outcome.WIN) = false := by
        simpa using hW
      have hD2 : cands.any (fun c => c.outcome == Outcome.DRAW) = false := by
        simpa using hD
      have hxW := List.any_eq_false.mp hW2 x hx
      have hxD := List.any_eq_false.mp hD2 x hx
      have hxL : x.outcome = Outcome.LOSS := by
        cases hout : x.outcome
        · rw [hout] at hxW
          simp at hxW
        · rw [hout] at hxD
          simp at hxD
        · rfl
      exact List.ne_nil_of_mem (List.mem_filter.mpr ⟨hx, by simp [hxL]⟩)

theorem mem_lossFilter {C : List Cand} {c : Cand} (h : c ∈ lossFilter C) : c ∈ C := by
  simp only [lossFilter] at h
  split at h
  · exact h
  · split at h
    · exact h
    · exact List.mem_of_mem_filter h

theorem lossFilter_ne_nil {C : List Cand} (h : C ≠ []) : lossFilter C ≠ [] := by
  simp only [lossFilter]
  split
  · exact h
  · split
    · exact h
    · next hne => simpa using hne

theorem mem_winSort {C : List Cand} {c : Cand} (h : c ∈ winSort C) : c ∈ C :=
  mem_of_mem_insertionSort h

theorem winSort_ne_nil {C : List Cand} (h : C ≠ []) : winSort C ≠ [] :=
  insertionSort_ne_nil _ h

theorem stage2_mem {cands : List Cand} {c : Cand} (h : c ∈ stage2 cands) :
    c ∈ cands ∧ c.outcome = (selectTarget cands).1 := by
  simp only [stage2] at h
  split at h
  · exact selectTarget_snd_mem h
  · split at h
    · exact selectTarget_snd_mem (mem_lossFilter h)
    · exact selectTarget_snd_mem h

theorem stage2_ne_nil {cands : List Cand} (h : cands ≠ []) : stage2 cands ≠ [] := by
  simp only [stage2]
  split
  · exact selectTarget_ne_nil h
  · split
    · exact lossFilter_ne_nil (selectTarget_ne_nil h)
    · exact selectTarget_ne_nil h

theorem filter_ne_nil_of_any {α : Type} {p : α → Bool} {C : List α}
    (h : C.any p = true) : C.filter p ≠ [] := by
  rcases List.any_eq_true.mp h with ⟨x, hx, hp⟩
  exact List.ne_nil_of_mem (List.mem_filter.mpr ⟨hx, hp⟩)

theorem ne_nil_of_not_isEmpty {α : Type} {l : List α} (h : (!l.isEmpty) = true) :
    l ≠ [] := by
  simpa using h

/-! ### Cascade lemmas: every cascade only narrows the set and never
empties a non-empty set. -/

theorem keepIf_subset {α : Type} (p : α → Bool) (C : List α) : keepIf p C ⊆ C :=
  fun _ hx => mem_keepIf hx

theorem ite_subset {α : Type} {c : Prop} [Decidable c] {A B D : List α}
    (hA : A ⊆ D) (hB : B ⊆ D) : (if c then A else B) ⊆ D := by
  split
  · exact hA
  · exact hB

theorem ite_ne_nil {α : Type} {c : Prop} [Decidable c] {A B : List α}
    (hA : c → A ≠ []) (hB : ¬c → B ≠ []) : (if c then A else B) ≠ [] := by
  split
  · next hc => exact hA hc
  · next hc => exact hB hc

theorem kbpKbCascade_subset (target : Outcome) (C : List (ACand KbpKbF)) :
    kbpKbCascade target C ⊆ C := by
  simp only [kbpKbCascade]
  refine (keepIf_subset _ _).trans (ite_subset ((keepIf_subset _ _).trans ?_) ?_)
  all_goals
    exact (keepIf_subset _ _).trans ((keepIf_subset _ _).trans (keepIf_subset _ _))

theorem kbpKbCascade_ne_nil {target : Outcome} {C : List (ACand KbpKbF)}
    (h : C ≠ []) : kbpKbCascade target C ≠ [] := by
  simp only [kbpKbCascade]
  refine keepIf_ne_nil _ (ite_ne_nil (fun _ => keepIf_ne_nil _ ?_) (fun _ => ?_))
  all_goals
    exact keepIf_ne_nil _ (keepIf_ne_nil _ (keepIf_ne_nil _ h))

theorem filter_sub {α : Type} (p : α → Bool) (C : List α) : C.filter p ⊆ C :=
  fun _ hx => List.mem_of_mem_filter hx

theorem krKrpCascade_subset (C : List (ACand KrKrpF)) : krKrpCascade C ⊆ C := by
  simp only [krKrpCascade]
  refine ite_subset ((filter_sub _ _).trans ?_)
    (ite_subset ((filter_sub _ _).trans ?_) ?_)
  all_goals
    exact (keepIf_subset _ _).trans ((keepIf_subset _ _).trans
      ((keepIf_subset _ _).trans ((keepIf_subset _ _).trans (keepIf_subset _ _))))

theorem krKrpCascade_ne_nil {C : List (ACand KrKrpF)} (h : C ≠ []) :
    krKrpCascade C ≠ [] := by
  simp only [krKrpCascade]
  refine ite_ne_nil (fun hc => ne_nil_of_not_isEmpty hc)
    (fun _ => ite_ne_nil (fun hb => ne_nil_of_not_isEmpty hb) (fun _ => ?_))
  exact keepIf_ne_nil _ (keepIf_ne_nil _ (keepIf_ne_nil _ (keepIf_ne_nil _
    (keepIf_ne_nil _ h))))

theorem kpKpCascade_subset (C : List (ACand KpKpF)) : kpKpCascade C ⊆ C := by
  simp only [kpKpCascade]
  refine ite_subset ((filter_sub _ _).trans ?_)
    (ite_subset ((filter_sub _ _).trans ?_) ?_)
  all_goals
    refine (keepIf_subset _ _).trans (ite_subset (filter_sub _ _) ?_)
    exact (keepIf_subset _ _).trans ((keepIf_subset _ _).trans (keepIf_subset _ _))

theorem kpKpCascade_ne_nil {C : List (ACand KpKpF)} (h : C ≠ []) :
    kpKpCascade C ≠ [] := by
  simp only [kpKpCascade]
  refine ite_ne_nil (fun hc => ne_nil_of_not_isEmpty hc)
    (fun _ => ite_ne_nil (fun hb => ne_nil_of_not_isEmpty hb) (fun _ => ?_))
  refine keepIf_ne_nil _ (ite_ne_nil (fun ha => filter_ne_nil_of_any ha) (fun _ => ?_))
  exact keepIf_ne_nil _ (keepIf_ne_nil _ (keepIf_ne_nil _ h))

theorem krKpCascade_subset (target : Outcome) (C : List (ACand KrKpF)) :
    krKpCascade target C ⊆ C := by
  simp only [krKpCascade]
  have hC1 : (if (target != Outcome.WIN && C.any fun c => !c.features.promoted) = true then
      List.filter (fun c => !c.features.promoted) C else C) ⊆ C :=
    ite_subset (filter_sub _ _) (fun _ hx => hx)
  refine ite_subset (ite_subset ((filter_sub _ _).trans ?_) ?_) ?_
  all_goals refine ite_subset (ite_subset ((filter_sub _ _).trans ?_) ?_) ?_
  all_goals refine (keepIf_subset _ _).trans ?_
  all_goals
    exact ite_subset ((filter_sub _ _).trans hC1)
      ((keepIf_subset _ _).trans ((keepIf_subset _ _).trans hC1))

theorem krKpCascade_ne_nil {target : Outcome} {C : List (ACand KrKpF)}
    (h : C ≠ []) : krKpCascade target C ≠ [] := by
  simp only [krKpCascade]
  have hC1 : (if (target != Outcome.WIN && C.any fun c => !c.features.promoted) = true then
      List.filter (fun c => !c.features.promoted) C else C) ≠ [] := by
    refine ite_ne_nil (fun hc => ?_) (fun _ => h)
    exact filter_ne_nil_of_any ((Bool.and_eq_true _ _).mp hc).2
  refine ite_ne_nil (fun _ => ite_ne_nil (fun hk => ne_nil_of_not_isEmpty hk)
    (fun _ => ?_)) (fun _ => ?_)
  all_goals refine ite_ne_nil (fun _ => ite_ne_nil
    (fun hp => ne_nil_of_not_isEmpty hp) (fun _ => ?_)) (fun _ => ?_)
  all_goals refine keepIf_ne_nil _ ?_
  all_goals
    exact ite_ne_nil (fun ha => filter_ne_nil_of_any ha)
      (fun _ => keepIf_ne_nil _ (keepIf_ne_nil _ hC1))

theorem krpKrCascade_subset (target : Outcome) (C : List (ACand KrpKrF)) :
    krpKrCascade target C ⊆ C := by
  simp only [krpKrCascade]
  refine ite_subset (ite_subset ((filter_sub _ _).trans ?_) ?_) ?_
  all_goals
    exact (keepIf_subset _ _).trans ((keepIf_subset _ _).trans
      ((keepIf_subset _ _).trans (keepIf_subset _ _)))

theorem krpKrCascade_ne_nil {target : Outcome} {C : List (ACand KrpKrF)}
    (h : C ≠ []) : krpKrCascade target C ≠ [] := by
  simp only [krpKrCascade]
  refine ite_ne_nil (fun _ => ite_ne_nil (fun hk => ne_nil_of_not_isEmpty hk)
    (fun _ => ?_)) (fun _ => ?_)
  all_goals
    exact keepIf_ne_nil _ (keepIf_ne_nil _ (keepIf_ne_nil _ (keepIf_ne_nil _ h)))

/-! ### Per-policy selection lemmas: each policy answers `some` of the
`original` of a candidate surviving the outcome classification and the
outcome-specific metric filter. -/

theorem kbpKb_sel (analyze : String → Option KbpKbF) (input : Input) (td : TbData)
    (moves : List TbMove) (h1 : input.tbData = some td) (h2 : td.moves = some moves)
    (h3 : moves ≠ []) :
    ∃ c ∈ stage2 (kbpKbCandidates moves), kbpKbPolicy analyze input = some c.original := by
  have hcne : kbpKbCandidates moves ≠ [] := by
    simp only [kbpKbCandidates, ne_eq, List.map_eq_nil_iff]
    exact h3
  simp only [kbpKbPolicy, h1, h2]
  rw [if_neg (fun hcontra => h3 (List.isEmpty_iff.mp hcontra))]
  by_cases hW : ((selectTarget (kbpKbCandidates moves)).1 == Outcome.WIN) = true
  · rw [if_pos hW]
    obtain ⟨c, hc⟩ := exists_head? (winSort_ne_nil (selectTarget_ne_nil hcne))
    have hmem : c ∈ (selectTarget (kbpKbCandidates moves)).2 := mem_winSort (head?_mem hc)
    refine ⟨c, ?_, ?_⟩
    · simp only [stage2]
      rw [if_pos hW]
      exact hmem
    · rw [hc]
      rfl
  · rw [if_neg hW]
    have hstage : stage2 (kbpKbCandidates moves) =
        (if ((selectTarget (kbpKbCandidates moves)).1 == Outcome.LOSS) = true then
          lossFilter (selectTarget (kbpKbCandidates moves)).2
        else (selectTarget (kbpKbCandidates moves)).2) := by
      simp only [stage2]
      rw [if_neg hW]
    rw [← hstage]
    have hC2ne : stage2 (kbpKbCandidates moves) ≠ [] := stage2_ne_nil hcne
    by_cases hA : (analyzeAll analyze (stage2 (kbpKbCandidates moves))).isEmpty = true
    · rw [if_pos hA]
      obtain ⟨c, hc⟩ := exists_head? hC2ne
      refine ⟨c, head?_mem hc, ?_⟩
      rw [hc]
      rfl
    · rw [if_neg hA]
      have hAne : analyzeAll analyze (stage2 (kbpKbCandidates moves)) ≠ [] := by
        intro hnil
        exact hA (by rw [hnil]; rfl)
      obtain ⟨x, hx⟩ := exists_head?
        (insertionSort_ne_nil
          (fun a b => kbpKbCmp (selectTarget (kbpKbCandidates moves)).1 a b ≤ 0)
          (kbpKbCascade_ne_nil hAne))
      refine ⟨x.cand, ?_, ?_⟩
      · exact mem_analyzeAll (kbpKbCascade_subset _ _ (mem_of_mem_insertionSort (head?_mem hx)))
      · rw [hx]
        rfl

theorem krKrp_sel (analyze : String → Option KrKrpF) (input : Input) (td : TbData)
    (moves : List TbMove) (h1 : input.tbData = some td) (h2 : td.moves = some moves)
    (h3 : moves ≠ []) :
    ∃ c ∈ stage2 (krKrpCandidates moves), krKrpPolicy analyze input = some c.original := by
  have hcne : krKrpCandidates moves ≠ [] := by
    simp only [krKrpCandidates, ne_eq, List.map_eq_nil_iff]
    exact h3
  simp only [krKrpPolicy, h1, h2]
  rw [if_neg (fun hcontra => h3 (List.isEmpty_iff.mp hcontra))]
  by_cases hW : ((selectTarget (krKrpCandidates moves)).1 == Outcome.WIN) = true
  · rw [if_pos hW]
    obtain ⟨c, hc⟩ := exists_head? (winSort_ne_nil (selectTarget_ne_nil hcne))
    have hmem : c ∈ (selectTarget (krKrpCandidates moves)).2 := mem_winSort (head?_mem hc)
    refine ⟨c, ?_, ?_⟩
    · simp only [stage2]
      rw [if_pos hW]
      exact hmem
    · rw [hc]
      rfl
  · rw [if_neg hW]
    have hstage : stage2 (krKrpCandidates moves) =
        (if ((selectTarget (krKrpCandidates moves)).1 == Outcome.LOSS) = true then
          lossFilter (selectTarget (krKrpCandidates moves)).2
        else (selectTarget (krKrpCandidates moves)).2) := by
      simp only [stage2]
      rw [if_neg hW]
    rw [← hstage]
    have hC2ne : stage2 (krKrpCandidates moves) ≠ [] := stage2_ne_nil hcne
    by_cases hA : (analyzeAll analyze (stage2 (krKrpCandidates moves))).isEmpty = true
    · rw [if_pos hA]
      obtain ⟨c, hc⟩ := exists_head? hC2ne
      refine ⟨c, head?_mem hc, ?_⟩
      rw [hc]
      rfl
    · rw [if_neg hA]
      have hAne : analyzeAll analyze (stage2 (krKrpCandidates moves)) ≠ [] := by
        intro hnil
        exact hA (by rw [hnil]; rfl)
      obtain ⟨x, hx⟩ := exists_head?
        (insertionSort_ne_nil
          (fun a b => krKrpCmp (selectTarget (krKrpCandidates moves)).1
            (if (match (krKrpCascade (analyzeAll analyze
                  (stage2 (krKrpCandidates moves)))).head? with
                | some c => c.features.phase
                | none => "") == "" then "A"
              else (match (krKrpCascade (analyzeAll analyze
                  (stage2 (krKrpCandidates moves)))).head? with
                | some c => c.features.phase
                | none => "")) a b ≤ 0)
          (krKrpCascade_ne_nil hAne))
      refine ⟨x.cand, ?_, ?_⟩
      · exact mem_analyzeAll (krKrpCascade_subset _ (mem_of_mem_insertionSort (head?_mem hx)))
      · rw [hx]
        rfl

theorem kpKp_sel (analyze : String → Option KpKpF) (input : Input) (td : TbData)
    (moves : List TbMove) (h1 : input.tbData = some td) (h2 : td.moves = some moves)
    (h3 : moves ≠ []) :
    ∃ c ∈ stage2 (kpKpCandidates moves), kpKpPolicy analyze input = some c.original := by
  have hcne : kpKpCandidates moves ≠ [] := by
    simp only [kpKpCandidates, ne_eq, List.map_eq_nil_iff]
    exact h3
  simp only [kpKpPolicy, h1, h2]
  rw [if_neg (fun hcontra => h3 (List.isEmpty_iff.mp hcontra))]
  by_cases hW : ((selectTarget (kpKpCandidates moves)).1 == Outcome.WIN) = true
  · rw [if_pos hW]
    obtain ⟨c, hc⟩ := exists_head? (winSort_ne_nil (selectTarget_ne_nil hcne))
    have hmem : c ∈ (selectTarget (kpKpCandidates moves)).2 := mem_winSort (head?_mem hc)
    refine ⟨c, ?_, ?_⟩
    · simp only [stage2]
      rw [if_pos hW]
      exact hmem
    · rw [hc]
      rfl
  · rw [if_neg hW]
    have hstage : stage2 (kpKpCandidates moves) =
        (if ((selectTarget (kpKpCandidates moves)).1 == Outcome.LOSS) = true then
          lossFilter (selectTarget (kpKpCandidates moves)).2
        else (selectTarget (kpKpCandidates moves)).2) := by
      simp only [stage2]
      rw [if_neg hW]
    rw [← hstage]
    have hC2ne : stage2 (kpKpCandidates moves) ≠ [] := stage2_ne_nil hcne
    by_cases hA : (analyzeAll analyze (stage2 (kpKpCandidates moves))).isEmpty = true
    · rw [if_pos hA]
      obtain ⟨c, hc⟩ := exists_head? hC2ne
      refine ⟨c, head?_mem hc, ?_⟩
      rw [hc]
      rfl
    · rw [if_neg hA]
      have hAne : analyzeAll analyze (stage2 (kpKpCandidates moves)) ≠ [] := by
        intro hnil
        exact hA (by rw [hnil]; rfl)
      obtain ⟨x, hx⟩ := exists_head?
        (insertionSort_ne_nil
          (fun a b => kpKpCmp (selectTarget (kpKpCandidates moves)).1 a b ≤ 0)
          (kpKpCascade_ne_nil hAne))
      refine ⟨x.cand, ?_, ?_⟩
      · exact mem_analyzeAll (kpKpCascade_subset _ (mem_of_mem_insertionSort (head?_mem hx)))
      · rw [hx]
        rfl

theorem krKp_sel (analyze : String → Option KrKpF) (input : Input) (td : TbData)
    (moves : List TbMove) (h1 : input.tbData = some td) (h2 : td.moves = some moves)
    (h3 : moves ≠ []) :
    ∃ c ∈ stage2 (krKpCandidates moves), krKpPolicy analyze input = some c.original := by
  have hcne : krKpCandidates moves ≠ [] := by
    simp only [krKpCandidates, ne_eq, List.map_eq_nil_iff]
    exact h3
  simp only [krKpPolicy, h1, h2]
  rw [if_neg (fun hcontra => h3 (List.isEmpty_iff.mp hcontra))]
  by_cases hW : ((selectTarget (krKpCandidates moves)).1 == Outcome.WIN) = true
  · rw [if_pos hW]
    obtain ⟨c, hc⟩ := exists_head? (winSort_ne_nil (selectTarget_ne_nil hcne))
    have hmem : c ∈ (selectTarget (krKpCandidates moves)).2 := mem_winSort (head?_mem hc)
    refine ⟨c, ?_, ?_⟩
    · simp only [stage2]
      rw [if_pos hW]
      exact hmem
    · rw [hc]
      rfl
  · rw [if_neg hW]
    have hstage : stage2 (krKpCandidates moves) =
        (if ((selectTarget (krKpCandidates moves)).1 == Outcome.LOSS) = true then
          lossFilter (selectTarget (krKpCandidates moves)).2
        else (selectTarget (krKpCandidates moves)).2) := by
      simp only [stage2]
      rw [if_neg hW]
    rw [← hstage]
    have hC2ne : stage2 (krKpCandidates moves) ≠ [] := stage2_ne_nil hcne
    by_cases hA : (analyzeAll analyze (stage2 (krKpCandidates moves))).isEmpty = true
    · rw [if_pos hA]
      obtain ⟨c, hc⟩ := exists_head? hC2ne
      refine ⟨c, head?_mem hc, ?_⟩
      rw [hc]
      rfl
    · rw [if_neg hA]
      have hAne : analyzeAll analyze (stage2 (krKpCandidates moves)) ≠ [] := by
        intro hnil
        exact hA (by rw [hnil]; rfl)
      obtain ⟨x, hx⟩ := exists_head?
        (insertionSort_ne_nil (fun a b => krKpCmp a b ≤ 0) (krKpCascade_ne_nil hAne))
      refine ⟨x.cand, ?_, ?_⟩
      · exact mem_analyzeAll (krKpCascade_subset _ _ (mem_of_mem_insertionSort (head?_mem hx)))
      · rw [hx]
        rfl

theorem krpKr_sel (analyze : String → Option KrpKrF) (input : Input) (td : TbData)
    (moves : List TbMove) (h1 : input.tbData = some td) (h2 : td.moves = some moves)
    (h3 : moves ≠ []) :
    ∃ c ∈ stage2 (krpKrCandidates moves), krpKrPolicy analyze input = some c.original := by
  have hcne : krpKrCandidates moves ≠ [] := by
    simp only [krpKrCandidates, ne_eq, List.map_eq_nil_iff]
    exact h3
  simp only [krpKrPolicy, h1, h2]
  rw [if_neg (fun hcontra => h3 (List.isEmpty_iff.mp hcontra))]
  by_cases hW : ((selectTarget (krpKrCandidates moves)).1 == Outcome.WIN) = true
  · rw [if_pos hW]
    obtain ⟨c, hc⟩ := exists_head? (winSort_ne_nil (selectTarget_ne_nil hcne))
    have hmem : c ∈ (selectTarget (krpKrCandidates moves)).2 := mem_winSort (head?_mem hc)
    refine ⟨c, ?_, ?_⟩
    · simp only [stage2]
      rw [if_pos hW]
      exact hmem
    · rw [hc]
      rfl
  · rw [if_neg hW]
    have hstage : stage2 (krpKrCandidates moves) =
        (if ((selectTarget (krpKrCandidates moves)).1 == Outcome.LOSS) = true then
          lossFilter (selectTarget (krpKrCandidates moves)).2
        else (selectTarget (krpKrCandidates moves)).2) := by
      simp only [stage2]
      rw [if_neg hW]
    rw [← hstage]
    have hC2ne : stage2 (krpKrCandidates moves) ≠ [] := stage2_ne_nil hcne
    by_cases hA : (analyzeAll analyze (stage2 (krpKrCandidates moves))).isEmpty = true
    · rw [if_pos hA]
      obtain ⟨c, hc⟩ := exists_head? hC2ne
      refine ⟨c, head?_mem hc, ?_⟩
      rw [hc]
      rfl
    · rw [if_neg hA]
      have hAne : analyzeAll analyze (stage2 (krpKrCandidates moves)) ≠ [] := by
        intro hnil
        exact hA (by rw [hnil]; rfl)
      obtain ⟨x, hx⟩ := exists_head?
        (insertionSort_ne_nil
          (fun a b => krpKrCmp (selectTarget (krpKrCandidates moves)).1 a b ≤ 0)
          (krpKrCascade_ne_nil hAne))
      refine ⟨x.cand, ?_, ?_⟩
      · exact mem_analyzeAll (krpKrCascade_subset _ _ (mem_of_mem_insertionSort (head?_mem hx)))
      · rw [hx]
        rfl

/-! ### Default policy and orchestrator lemmas -/

theorem defaultPolicy_mem (input : Input) (td : TbData) (moves : List TbMove)
    (h1 : input.tbData = some td) (h2 : td.moves = some moves) (h3 : moves ≠ []) :
    ∃ m ∈ moves, defaultPolicy input = some m := by
  cases moves with
  | nil => exact absurd rfl h3
  | cons first rest =>
    simp only [defaultPolicy, h1, h2]
    by_cases hwdl : (tbMoveCategoryToMoverWdl first.category == 0) = true
    · rw [if_pos hwdl]
      cases hfind : ((first :: rest).filter
          (fun m => tbMoveCategoryToMoverWdl m.category == 0)).find?
          (fun m => m.san != "" && !(strIncludes m.san "x")) with
      | none => exact ⟨first, List.mem_cons_self _ _, rfl⟩
      | some nc =>
        refine ⟨nc, ?_, rfl⟩
        exact List.mem_of_mem_filter (List.mem_of_find?_eq_some hfind)
    · rw [if_neg hwdl]
      exact ⟨first, List.mem_cons_self _ _, rfl⟩

theorem selectComputerMove_mem (pol : Input → Except String (Option TbMove))
    (input : Input) (td : TbData) (moves : List TbMove)
    (h1 : input.tbData = some td) (h2 : td.moves = some moves) (h3 : moves ≠ []) :
    ∃ m, selectComputerMove pol input = some m ∧
      moves.any (fun x => x.uci == m.uci) = true := by
  obtain ⟨md, hmd, hdp⟩ := defaultPolicy_mem input td moves h1 h2 h3
  have hdany : moves.any (fun x => x.uci == md.uci) = true :=
    List.any_eq_true.mpr ⟨md, hmd, by simp⟩
  simp only [selectComputerMove, h1, h2]
  rw [if_neg (fun hcontra => h3 (List.isEmpty_iff.mp hcontra))]
  cases hp : pol input with
  | error e =>
    rw [hdp]
    rw [if_pos hdany]
    exact ⟨md, rfl, hdany⟩
  | ok r =>
    cases r with
    | none =>
      rw [hdp]
      rw [if_pos hdany]
      exact ⟨md, rfl, hdany⟩
    | some m =>
      by_cases hv : moves.any (fun x => x.uci == m.uci) = true
      · rw [if_pos hv]
        exact ⟨m, rfl, hv⟩
      · rw [if_neg hv, hdp]
        exact ⟨md, rfl, hdany⟩

theorem selectComputerMove_falls_back (pol : Input → Except String (Option TbMove))
    (input : Input) (td : TbData) (moves : List TbMove)
    (h1 : input.tbData = some td) (h2 : td.moves = some moves) (h3 : moves ≠ [])
    (hfail : (∃ e, pol input = Except.error e) ∨ pol input = Except.ok none ∨
      (∃ m, pol input = Except.ok (some m) ∧ ∀ x ∈ moves, x.uci ≠ m.uci)) :
    selectComputerMove pol input = defaultPolicy input := by
  obtain ⟨md, hmd, hdp⟩ := defaultPolicy_mem input td moves h1 h2 h3
  have hdany : moves.any (fun x => x.uci == md.uci) = true :=
    List.any_eq_true.mpr ⟨md, hmd, by simp⟩
  simp only [selectComputerMove, h1, h2]
  rw [if_neg (fun hcontra => h3 (List.isEmpty_iff.mp hcontra))]
  rcases hfail with ⟨e, hp⟩ | hp | ⟨m, hp, hnot⟩
  · rw [hp, hdp, if_pos hdany]
  · rw [hp, hdp, if_pos hdany]
  · rw [hp]
    have hv : moves.any (fun x => x.uci == m.uci) = false := by
      rw [List.any_eq_false]
      intro x hx
      simpa using hnot x hx
    rw [if_neg (by simp [hv])]

theorem defaultPolicy_spec (input : Input) (td : TbData) (first : TbMove)
    (rest : List TbMove) (h1 : input.tbData = some td)
    (h2 : td.moves = some (first :: rest)) :
    (tbMoveCategoryToMoverWdl first.category ≠ 0 → defaultPolicy input = some first) ∧
    (tbMoveCategoryToMoverWdl first.category = 0 →
      (∀ nc, ((first :: rest).filter
          (fun m => tbMoveCategoryToMoverWdl m.category == 0)).find?
          (fun m => m.san != "" && !(strIncludes m.san "x")) = some nc →
          defaultPolicy input = some nc) ∧
      (((first :: rest).filter
          (fun m => tbMoveCategoryToMoverWdl m.category == 0)).find?
          (fun m => m.san != "" && !(strIncludes m.san "x")) = none →
          defaultPolicy input = some first)) := by
  constructor
  · intro hne
    simp only [defaultPolicy, h1, h2]
    rw [if_neg (by simpa using hne)]
  · intro heq
    constructor
    · intro nc hfind
      simp only [defaultPolicy, h1, h2]
      rw [if_pos (by simpa using heq), hfind]
    · intro hfind
      simp only [defaultPolicy, h1, h2]
      rw [if_pos (by simpa using heq), hfind]

/-! ### The WIN comparator is a total preorder; head of the WIN sort is
dtm-minimal with identifier tie-break -/

theorem winLe_total (a b : Cand) : winLe a b = true ∨ winLe b a = true := by
  unfold winLe
  by_cases h : dtmVal a = dtmVal b
  · rw [if_neg (not_not_intro h), if_neg (not_not_intro h.symm)]
    rcases le_total a.uci b.uci with hle | hle
    · exact Or.inl (decide_eq_true hle)
    · exact Or.inr (decide_eq_true hle)
  · rcases lt_or_gt_of_ne h with hlt | hgt
    · exact Or.inl (by rw [if_pos h]; exact decide_eq_true hlt)
    · exact Or.inr (by rw [if_pos (Ne.symm h)]; exact decide_eq_true hgt)

theorem winLe_trans {a b c : Cand} (hab : winLe a b = true) (hbc : winLe b c = true) :
    winLe a c = true := by
  unfold winLe at *
  by_cases h1 : dtmVal a = dtmVal b
  · rw [if_neg (not_not_intro h1)] at hab
    by_cases h2 : dtmVal b = dtmVal c
    · rw [if_neg (not_not_intro h2)] at hbc
      rw [if_neg (not_not_intro (h1.trans h2))]
      exact decide_eq_true (le_trans (of_decide_eq_true hab) (of_decide_eq_true hbc))
    · rw [if_pos h2] at hbc
      have hac : dtmVal a ≠ dtmVal c := by rw [h1]; exact h2
      rw [if_pos hac]
      exact decide_eq_true (h1 ▸ of_decide_eq_true hbc)
  · rw [if_pos h1] at hab
    have hlt1 := of_decide_eq_true hab
    by_cases h2 : dtmVal b = dtmVal c
    · have hac : dtmVal a ≠ dtmVal c := by rw [← h2]; exact h1
      rw [if_pos hac]
      exact decide_eq_true (h2 ▸ hlt1)
    · rw [if_pos h2] at hbc
      have hlt2 := of_decide_eq_true hbc
      have hlt := lt_trans hlt1 hlt2
      rw [if_pos (ne_of_lt hlt)]
      exact decide_eq_true hlt

theorem winLe_dtm_le {a b : Cand} (h : winLe a b = true) :
    dtmVal a ≤ dtmVal b ∧ (dtmVal b = dtmVal a → a.uci ≤ b.uci) := by
  unfold winLe at h
  by_cases he : dtmVal a = dtmVal b
  · rw [if_neg (not_not_intro he)] at h
    exact ⟨le_of_eq he, fun _ => of_decide_eq_true h⟩
  · rw [if_pos he] at h
    exact ⟨le_of_lt (of_decide_eq_true h), fun hcontra => absurd hcontra.symm he⟩

theorem map_any_win (dtmOf : TbMove → Option Nat) (moves : List TbMove)
    (h : moves.any (fun m => getMoverResult m.category == Outcome.WIN) = true) :
    (moves.map (mkCand dtmOf)).any (fun c => c.outcome == Outcome.WIN) = true := by
  rcases List.any_eq_true.mp h with ⟨m, hm, hp⟩
  exact List.any_eq_true.mpr ⟨mkCand dtmOf m, List.mem_map_of_mem _ hm, hp⟩

theorem selectTarget_fst_win {cands : List Cand}
    (h : cands.any (fun c => c.outcome == Outcome.WIN) = true) :
    (selectTarget cands).1 = Outcome.WIN ∧
    (selectTarget cands).2 = cands.filter (fun c => c.outcome == Outcome.WIN) := by
  rw [selectTarget, if_pos h]
  exact ⟨rfl, rfl⟩

theorem winBranch_spec (dtmOf : TbMove → Option Nat) (moves : List TbMove)
    (hWin : moves.any (fun m => getMoverResult m.category == Outcome.WIN) = true) :
    ∃ m, ((winSort (selectTarget (moves.map (mkCand dtmOf))).2).head?.map
        (fun c => c.original)) = some m ∧
      m ∈ moves ∧ getMoverResult m.category = Outcome.WIN ∧
      ∀ x ∈ moves, getMoverResult x.category = Outcome.WIN →
        dtmVal (mkCand dtmOf m) ≤ dtmVal (mkCand dtmOf x) ∧
        (dtmVal (mkCand dtmOf x) = dtmVal (mkCand dtmOf m) → m.uci ≤ x.uci) := by
  have hany := map_any_win dtmOf moves hWin
  have hsel := selectTarget_fst_win hany
  rw [hsel.2]
  have hne : (moves.map (mkCand dtmOf)).filter (fun c => c.outcome == Outcome.WIN) ≠ [] :=
    filter_ne_nil_of_any hany
  obtain ⟨c0, hc0⟩ := exists_head? (winSort_ne_nil hne)
  have hc0mem := mem_winSort (head?_mem hc0)
  have hc0win : (c0.outcome == Outcome.WIN) = true := (List.mem_filter.mp hc0mem).2
  rcases List.mem_map.mp (List.mem_of_mem_filter hc0mem) with ⟨y, hy, hyc⟩
  haveI : IsTotal Cand (fun a b => winLe a b = true) := ⟨winLe_total⟩
  haveI : IsTrans Cand (fun a b => winLe a b = true) := ⟨fun _ _ _ => winLe_trans⟩
  have hsorted := List.sorted_insertionSort (fun a b => winLe a b = true)
    ((moves.map (mkCand dtmOf)).filter (fun c => c.outcome == Outcome.WIN))
  subst hyc
  refine ⟨y, by rw [hc0]; rfl, hy, by simpa using hc0win, ?_⟩
  intro x hx hxwin
  have hxmem : mkCand dtmOf x ∈
      (moves.map (mkCand dtmOf)).filter (fun c => c.outcome == Outcome.WIN) :=
    List.mem_filter.mpr ⟨List.mem_map_of_mem _ hx, by simpa using hxwin⟩
  have hxsort : mkCand dtmOf x ∈ winSort
      ((moves.map (mkCand dtmOf)).filter (fun c => c.outcome == Outcome.WIN)) :=
    (List.perm_insertionSort _ _).mem_iff.mpr hxmem
  have hc0x : winLe (mkCand dtmOf y) (mkCand dtmOf x) = true ∨
      mkCand dtmOf x = mkCand dtmOf y := by
    cases hlist : winSort ((moves.map (mkCand dtmOf)).filter
        (fun c => c.outcome == Outcome.WIN)) with
    | nil =>
      rw [hlist] at hc0
      simp at hc0
    | cons a t =>
      rw [hlist] at hc0 hxsort
      have ha : a = mkCand dtmOf y := by
        simp only [List.head?] at hc0
        cases hc0
        rfl
      subst ha
      have hsorted2 : List.Sorted (fun a b => winLe a b = true)
          (mkCand dtmOf y :: t) := by
        rw [← hlist]
        exact hsorted
      rcases List.mem_cons.mp hxsort with heq | htail
      · exact Or.inr heq
      · exact Or.inl (List.rel_of_sorted_cons hsorted2 _ htail)
  rcases hc0x with hle | heq
  · exact winLe_dtm_le hle
  · exact ⟨le_of_eq (congrArg dtmVal heq).symm,
      fun _ => le_of_eq (congrArg Cand.uci heq).symm⟩

/-! ### Outcome classification facts -/

/-- The best outcome class present among the oracle moves (WIN over DRAW
over LOSS), stated on the raw move list. -/
def bestClass (moves : List TbMove) : Outcome :=
  if moves.any (fun m => getMoverResult m.category == Outcome.WIN) then Outcome.WIN
  else if moves.any (fun m => getMoverResult m.category == Outcome.DRAW) then Outcome.DRAW
  else Outcome.LOSS

theorem any_map_outcome (dtmOf : TbMove → Option Nat) (moves : List TbMove)
    (oc : Outcome) :
    (moves.map (mkCand dtmOf)).any (fun c => c.outcome == oc)
      = moves.any (fun m => getMoverResult m.category == oc) := by
  induction moves with
  | nil => rfl
  | cons m t ih =>
    rw [List.map_cons, List.any_cons, List.any_cons, ih]
    rfl

theorem selectTarget_fst_eq_bestClass (dtmOf : TbMove → Option Nat)
    (moves : List TbMove) :
    (selectTarget (moves.map (mkCand dtmOf))).1 = bestClass moves := by
  have hw := any_map_outcome dtmOf moves Outcome.WIN
  have hd := any_map_outcome dtmOf moves Outcome.DRAW
  by_cases h1 : moves.any (fun m => getMoverResult m.category == Outcome.WIN) = true
  · rw [selectTarget, bestClass, hw, if_pos h1, if_pos h1]
  · by_cases h2 : moves.any (fun m => getMoverResult m.category == Outcome.DRAW) = true
    · rw [selectTarget, bestClass, hw, hd, if_neg h1, if_neg h1, if_pos h2, if_pos h2]
    · rw [selectTarget, bestClass, hw, hd, if_neg h1, if_neg h1, if_neg h2, if_neg h2]

theorem outcome_of_mem_map {dtmOf : TbMove → Option Nat} {moves : List TbMove}
    {c : Cand} (h : c ∈ moves.map (mkCand dtmOf)) :
    getMoverResult c.original.category = c.outcome ∧ c.original ∈ moves := by
  rcases List.mem_map.mp h with ⟨y, hy, rfl⟩
  exact ⟨rfl, hy⟩

/-! ### The anti-collapse threshold scan ignores duplicate values -/

/-- Remove adjacent duplicates; on a descending-sorted value list this
yields exactly the distinct values, still in descending order. -/
def squeeze : List Nat → List Nat
  | [] => []
  | [x] => [x]
  | x :: y :: rest => if x == y then squeeze (y :: rest) else x :: squeeze (y :: rest)

theorem squeeze_cons (y : Nat) (rest : List Nat) :
    ∃ t, squeeze (y :: rest) = y :: t := by
  induction rest generalizing y with
  | nil => exact ⟨[], rfl⟩
  | cons z r ih =>
    by_cases h : (y == z) = true
    · have hyz : y = z := by simpa using h
      rcases ih z with ⟨t, ht⟩
      refine ⟨t, ?_⟩
      rw [squeeze, if_pos h, ht, hyz]
    · rcases ih z with ⟨t, ht⟩
      refine ⟨z :: t, ?_⟩
      rw [squeeze, if_neg h, ht]

theorem findGap_squeeze (d : Nat) (l : List Nat) :
    findGap d (squeeze l) = findGap d l := by
  induction l with
  | nil => rfl
  | cons x rest ih =>
    cases rest with
    | nil => rfl
    | cons y r =>
      by_cases h : (x == y) = true
      · have hxy : x = y := by simpa using h
        rw [squeeze, if_pos h]
        rw [ih]
        rw [findGap, if_neg (by rw [hxy]; simp [GAP_BREAK])]
      · rw [squeeze, if_neg h]
        rcases squeeze_cons y r with ⟨t, ht⟩
        rw [ht]
        rw [findGap]
        have hrec : findGap d (y :: t) = findGap d (y :: r) := by
          rw [← ht, ih]
        by_cases hgap : GAP_BREAK ≤ x - y
        · rw [if_pos hgap, findGap, if_pos hgap]
        · rw [if_neg hgap, findGap, if_neg hgap, hrec]

theorem mem_squeeze {v : Nat} : ∀ {l : List Nat}, v ∈ squeeze l ↔ v ∈ l := by
  intro l
  induction l with
  | nil => rfl
  | cons x rest ih =>
    cases rest with
    | nil => rfl
    | cons y r =>
      by_cases h : (x == y) = true
      · have hxy : x = y := by simpa using h
        rw [squeeze, if_pos h]
        constructor
        · intro hv
          exact List.mem_cons_of_mem _ (ih.mp hv)
        · intro hv
          rcases List.mem_cons.mp hv with rfl | hv2
          · exact ih.mpr (by rw [hxy]; exact List.mem_cons_self _ _)
          · exact ih.mpr hv2
      · rw [squeeze, if_neg h]
        constructor
        · intro hv
          rcases List.mem_cons.mp hv with rfl | hv2
          · exact List.mem_cons_self _ _
          · exact List.mem_cons_of_mem _ (ih.mp hv2)
        · intro hv
          rcases List.mem_cons.mp hv with rfl | hv2
          · exact List.mem_cons_self _ _
          · exact List.mem_cons_of_mem _ (ih.mpr hv2)

theorem squeeze_strict_desc :
    ∀ {l : List Nat}, List.Chain' (fun a b => b ≤ a) l →
      List.Chain' (fun a b => b < a) (squeeze l) := by
  intro l
  induction l with
  | nil => intro _; exact List.chain'_nil
  | cons x rest ih =>
    cases rest with
    | nil => intro _; simp [squeeze]
    | cons y r =>
      intro hch
      have hxy : y ≤ x := (List.chain'_cons.mp hch).1
      have htail : List.Chain' (fun a b => b ≤ a) (y :: r) := (List.chain'_cons.mp hch).2
      by_cases h : (x == y) = true
      · rw [squeeze, if_pos h]
        exact ih htail
      · rw [squeeze, if_neg h]
        rcases squeeze_cons y r with ⟨t, ht⟩
        rw [ht]
        refine List.chain'_cons.mpr ⟨?_, ?_⟩
        · exact lt_of_le_of_ne hxy (Ne.symm (by simpa using h))
        · rw [← ht]
          exact ih htail

theorem sortDescNat_chain (l : List Nat) :
    List.Chain' (fun a b => b ≤ a) (sortDescNat l) := by
  haveI : IsTotal Nat (fun a b => b ≤ a) := ⟨fun a b => le_total b a⟩
  haveI : IsTrans Nat (fun a b => b ≤ a) := ⟨fun _ _ _ h1 h2 => le_trans h2 h1⟩
  exact (List.sorted_insertionSort (fun a b => b ≤ a) l).chain'

theorem lossFilter_char (C : List Cand) :
    (gapThreshold (sortDescNat (C.filterMap (fun c => c.dtm))) = none →
      lossFilter C = C) ∧
    (∀ t, gapThreshold (sortDescNat (C.filterMap (fun c => c.dtm))) = some t →
      (C.filter (fun c => match c.dtm with | some d => decide (t ≤ d) | none => false) ≠ [] →
        lossFilter C =
          C.filter (fun c => match c.dtm with | some d => decide (t ≤ d) | none => false)) ∧
      (C.filter (fun c => match c.dtm with | some d => decide (t ≤ d) | none => false) = [] →
        lossFilter C = C)) := by
  constructor
  · intro hg
    simp only [lossFilter]
    rw [hg]
  · intro t hg
    constructor
    · intro hne
      simp only [lossFilter, hg]
      rw [if_neg (fun hI => hne (List.isEmpty_iff.mp hI))]
    · intro heq
      simp only [lossFilter, hg]
      rw [if_pos (by rw [heq]; rfl)]

/-! ### Claim theorems -/

/-- C10: because `getMoverResult` tests `loss` before `draw` and `win`,
the 50-move-rule oracle categories are folded into full results: a
`blessed-loss` category (the opponent's blessed loss) maps to mover
outcome WIN and a `cursed-win` category (the opponent's cursed win)
maps to mover outcome LOSS; neither is treated as DRAW. -/
theorem C10_fifty_move_categories :
    getMoverResult (some "blessed-loss") = Outcome.WIN ∧
    getMoverResult (some "cursed-win") = Outcome.LOSS ∧
    getMoverResult (some "blessed-loss") ≠ Outcome.DRAW ∧
    getMoverResult (some "cursed-win") ≠ Outcome.DRAW := by decide

/-- C8: `getMoverResult` derives the mover outcome from the oracle
category by inversion, testing the substrings in the order `loss`,
`draw`, `win` on the lower-cased category: containing `loss` yields
WIN; containing `draw` (not `loss`) yields DRAW; containing `win`
(neither `loss` nor `draw`) yields LOSS; any other category — including
a missing or empty one — yields DRAW, never WIN or LOSS.  The function
is total, so no category can raise an error. -/
theorem C8_category_inversion (category : Option String) :
    (strIncludes (strToLower (category.getD "")) "loss" = true →
      getMoverResult category = Outcome.WIN) ∧
    (strIncludes (strToLower (category.getD "")) "loss" = false →
      strIncludes (strToLower (category.getD "")) "draw" = true →
      getMoverResult category = Outcome.DRAW) ∧
    (strIncludes (strToLower (category.getD "")) "loss" = false →
      strIncludes (strToLower (category.getD "")) "draw" = false →
      strIncludes (strToLower (category.getD "")) "win" = true →
      getMoverResult category = Outcome.LOSS) ∧
    (strIncludes (strToLower (category.getD "")) "loss" = false →
      strIncludes (strToLower (category.getD "")) "draw" = false →
      strIncludes (strToLower (category.getD "")) "win" = false →
      getMoverResult category = Outcome.DRAW) ∧
    getMoverResult none = Outcome.DRAW ∧
    getMoverResult (some "") = Outcome.DRAW := by
  refine ⟨?_, ?_, ?_, ?_, by decide, by decide⟩
  · intro hl
    simp [getMoverResult, hl]
  · intro hl hd
    simp [getMoverResult, hl, hd]
  · intro hl hd hw
    simp [getMoverResult, hl, hd, hw]
  · intro hl hd hw
    simp [getMoverResult, hl, hd, hw]

/-- Witness for C8 at the concrete category `Draw` (also exercising the
lower-casing). -/
theorem C8_witness :
    strIncludes (strToLower "Draw") "loss" = false ∧
    strIncludes (strToLower "Draw") "draw" = true ∧
    getMoverResult (some "Draw") = Outcome.DRAW :=
  ⟨by decide, by decide,
    (C8_category_inversion (some "Draw")).2.1 (by decide) (by decide)⟩

/-- An oracle move marked as checkmate but carrying no finite dtm. -/
def mateNoDtm : TbMove :=
  { uci := "h5h7", san := "Rh7#", category := some "loss", dtm := none,
    checkmate := true }

/-- C7 counterexample: the claim says every policy assigns a
checkmate-marked candidate normalized dtm 0, but the candidate lists of
`kbpKbPolicy` and `krpKrPolicy` ignore the checkmate mark: the
candidate built from `mateNoDtm` carries no dtm at all. -/
theorem C7_counterexample :
    mateNoDtm.checkmate = true ∧
    (∀ c ∈ kbpKbCandidates [mateNoDtm], c.dtm = none) ∧
    (∀ c ∈ krpKrCandidates [mateNoDtm], c.dtm = none) := by decide

/-- C7 (amended): in `krKrpPolicy`, `kpKpPolicy` and `krKpPolicy`
(normalization `dtmCm`) a checkmate-marked or zero-dtm candidate is
assigned dtm 0 and any other candidate's reported distance is
normalized to its non-negative magnitude; in `kbpKbPolicy` and
`krpKrPolicy` (normalization `dtmPlain`) the checkmate mark is ignored:
the dtm is the non-negative magnitude of the reported distance when one
is present, and absent otherwise. -/
theorem C7_dtm_normalization (m : TbMove) :
    (m.checkmate = true → (mkCand dtmCm m).dtm = some 0) ∧
    (m.dtm = some 0 → (mkCand dtmCm m).dtm = some 0) ∧
    (m.checkmate = false → m.dtm ≠ some 0 →
      (mkCand dtmCm m).dtm = m.dtm.map Int.natAbs) ∧
    (mkCand dtmPlain m).dtm = m.dtm.map Int.natAbs := by
  refine ⟨?_, ?_, ?_, rfl⟩
  · intro h
    simp [mkCand, dtmCm, h]
  · intro h
    simp [mkCand, dtmCm, h]
  · intro h1 h2
    simp [mkCand, dtmCm, h1, h2]

/-- Witness for C7's amended statement at `mateNoDtm`. -/
theorem C7_witness :
    mateNoDtm.checkmate = true ∧
    (mkCand dtmCm mateNoDtm).dtm = some 0 :=
  ⟨rfl, (C7_dtm_normalization mateNoDtm).1 rfl⟩


/-- C9: `kdist` is the Chebyshev distance, and
`kingCatchesPawnApprox kingSq pawnSq pawnColor sideToMove` is true iff
the Chebyshev distance from the king to the pawn's promotion square
(the pawn's file at rank 8 for white, rank 1 for black) is at most the
pawn's remaining steps to promotion (8 minus its rank for a white pawn,
its rank minus 1 for a black pawn) plus an allowance of exactly 1 when
the side to move is the pursuer (the colour opposite the pawn) and 0
otherwise. -/
theorem C9_square_rule (kingSq pawnSq : Square) (pawnColor sideToMove : String)
    (hc : pawnColor = "w" ∨ pawnColor = "b") :
    (∀ a b : Square, (kdist a b : Int) =
      max |getFileIdx a - getFileIdx b| |getRank a - getRank b|) ∧
    (kingCatchesPawnApprox kingSq pawnSq pawnColor sideToMove = true ↔
      ((kdist kingSq (pawnSq.1, if pawnColor = "w" then '8' else '1') : Nat) : Int)
        ≤ (if pawnColor = "w" then 8 - getRank pawnSq else getRank pawnSq - 1)
          + (if sideToMove = (if pawnColor = "w" then "b" else "w") then 1 else 0)) := by
  constructor
  · intro a b
    simp [kdist, Int.natCast_natAbs]
  · rcases hc with rfl | rfl <;>
      simp [kingCatchesPawnApprox, stepsToProm, promoSquare, getFile,
        decide_eq_true_eq, beq_iff_eq]

/-- Witness for C9: a black pawn on a2 with the white king on c3, White
to move (White is the pursuer, so one tempo is allowed). -/
theorem C9_witness :
    (("b" : String) = "w" ∨ ("b" : String) = "b") ∧
    (kingCatchesPawnApprox (⟨'c', '3'⟩ : Square) (⟨'a', '2'⟩ : Square) "b" "w" = true ↔
      ((kdist (⟨'c', '3'⟩ : Square) ((⟨'a', '2'⟩ : Square).1,
          if ("b" : String) = "w" then '8' else '1') : Nat) : Int)
        ≤ (if ("b" : String) = "w" then 8 - getRank (⟨'a', '2'⟩ : Square)
            else getRank (⟨'a', '2'⟩ : Square) - 1)
          + (if ("w" : String) = (if ("b" : String) = "w" then "b" else "w")
              then 1 else 0)) :=
  ⟨Or.inr rfl,
    (C9_square_rule (⟨'c', '3'⟩ : Square) (⟨'a', '2'⟩ : Square) "b" "w" (Or.inr rfl)).2⟩

/-- C1: on every input with a non-empty oracle move list, each of the
five policies returns a move whose mover outcome is the best outcome
class present among all candidates — WIN if any candidate is WIN, else
DRAW if any is DRAW, else LOSS; a strictly worse class than the best
available is never returned.  The statement is quantified over the
feature extractors, so no extraction outcome can break it. -/
theorem C1_best_class
    (a1 : String → Option KbpKbF) (a2 : String → Option KrKrpF)
    (a3 : String → Option KpKpF) (a4 : String → Option KrKpF)
    (a5 : String → Option KrpKrF) (input : Input) (td : TbData)
    (moves : List TbMove) (h1 : input.tbData = some td)
    (h2 : td.moves = some moves) (h3 : moves ≠ []) :
    (∃ m, kbpKbPolicy a1 input = some m ∧ getMoverResult m.category = bestClass moves) ∧
    (∃ m, krKrpPolicy a2 input = some m ∧ getMoverResult m.category = bestClass moves) ∧
    (∃ m, kpKpPolicy a3 input = some m ∧ getMoverResult m.category = bestClass moves) ∧
    (∃ m, krKpPolicy a4 input = some m ∧ getMoverResult m.category = bestClass moves) ∧
    (∃ m, krpKrPolicy a5 input = some m ∧ getMoverResult m.category = bestClass moves) := by
  refine ⟨?_, ?_, ?_, ?_, ?_⟩
  · obtain ⟨c, hcmem, hres⟩ := kbpKb_sel a1 input td moves h1 h2 h3
    obtain ⟨hin, hout⟩ := stage2_mem hcmem
    obtain ⟨hcat, _⟩ := outcome_of_mem_map hin
    refine ⟨c.original, hres, ?_⟩
    rw [hcat, hout]
    exact selectTarget_fst_eq_bestClass dtmPlain moves
  · obtain ⟨c, hcmem, hres⟩ := krKrp_sel a2 input td moves h1 h2 h3
    obtain ⟨hin, hout⟩ := stage2_mem hcmem
    obtain ⟨hcat, _⟩ := outcome_of_mem_map hin
    refine ⟨c.original, hres, ?_⟩
    rw [hcat, hout]
    exact selectTarget_fst_eq_bestClass dtmCm moves
  · obtain ⟨c, hcmem, hres⟩ := kpKp_sel a3 input td moves h1 h2 h3
    obtain ⟨hin, hout⟩ := stage2_mem hcmem
    obtain ⟨hcat, _⟩ := outcome_of_mem_map hin
    refine ⟨c.original, hres, ?_⟩
    rw [hcat, hout]
    exact selectTarget_fst_eq_bestClass dtmCm moves
  · obtain ⟨c, hcmem, hres⟩ := krKp_sel a4 input td moves h1 h2 h3
    obtain ⟨hin, hout⟩ := stage2_mem hcmem
    obtain ⟨hcat, _⟩ := outcome_of_mem_map hin
    refine ⟨c.original, hres, ?_⟩
    rw [hcat, hout]
    exact selectTarget_fst_eq_bestClass dtmCm moves
  · obtain ⟨c, hcmem, hres⟩ := krpKr_sel a5 input td moves h1 h2 h3
    obtain ⟨hin, hout⟩ := stage2_mem hcmem
    obtain ⟨hcat, _⟩ := outcome_of_mem_map hin
    refine ⟨c.original, hres, ?_⟩
    rw [hcat, hout]
    exact selectTarget_fst_eq_bestClass dtmPlain moves

/-- C2: with a non-empty `tbData.moves` list, `selectComputerMove` and
each of the five policies return a move whose `uci` identifier occurs
in the list (the five policies in fact return a member of the list);
when `tbData` or `tbData.moves` is missing or the list is empty, the
result is `null`. -/
theorem C2_membership_and_null
    (a1 : String → Option KbpKbF) (a2 : String → Option KrKrpF)
    (a3 : String → Option KpKpF) (a4 : String → Option KrKpF)
    (a5 : String → Option KrpKrF)
    (pol : Input → Except String (Option TbMove)) (input : Input) :
    (input.tbData = none →
      kbpKbPolicy a1 input = none ∧ krKrpPolicy a2 input = none ∧
      kpKpPolicy a3 input = none ∧ krKpPolicy a4 input = none ∧
      krpKrPolicy a5 input = none ∧ selectComputerMove pol input = none) ∧
    (∀ td, input.tbData = some td → td.moves = none →
      kbpKbPolicy a1 input = none ∧ krKrpPolicy a2 input = none ∧
      kpKpPolicy a3 input = none ∧ krKpPolicy a4 input = none ∧
      krpKrPolicy a5 input = none ∧ selectComputerMove pol input = none) ∧
    (∀ td, input.tbData = some td → td.moves = some [] →
      kbpKbPolicy a1 input = none ∧ krKrpPolicy a2 input = none ∧
      kpKpPolicy a3 input = none ∧ krKpPolicy a4 input = none ∧
      krpKrPolicy a5 input = none ∧ selectComputerMove pol input = none) ∧
    (∀ td moves, input.tbData = some td → td.moves = some moves → moves ≠ [] →
      (∃ m, kbpKbPolicy a1 input = some m ∧ m ∈ moves ∧
        moves.any (fun x => x.uci == m.uci) = true) ∧
      (∃ m, krKrpPolicy a2 input = some m ∧ m ∈ moves ∧
        moves.any (fun x => x.uci == m.uci) = true) ∧
      (∃ m, kpKpPolicy a3 input = some m ∧ m ∈ moves ∧
        moves.any (fun x => x.uci == m.uci) = true) ∧
      (∃ m, krKpPolicy a4 input = some m ∧ m ∈ moves ∧
        moves.any (fun x => x.uci == m.uci) = true) ∧
      (∃ m, krpKrPolicy a5 input = some m ∧ m ∈ moves ∧
        moves.any (fun x => x.uci == m.uci) = true) ∧
      (∃ m, selectComputerMove pol input = some m ∧
        moves.any (fun x => x.uci == m.uci) = true)) := by
  refine ⟨?_, ?_, ?_, ?_⟩
  · intro h
    exact ⟨by simp [kbpKbPolicy, h], by simp [krKrpPolicy, h], by simp [kpKpPolicy, h],
      by simp [krKpPolicy, h], by simp [krpKrPolicy, h], by simp [selectComputerMove, h]⟩
  · intro td h hm
    exact ⟨by simp [kbpKbPolicy, h, hm], by simp [krKrpPolicy, h, hm],
      by simp [kpKpPolicy, h, hm], by simp [krKpPolicy, h, hm],
      by simp [krpKrPolicy, h, hm], by simp [selectComputerMove, h, hm]⟩
  · intro td h hm
    exact ⟨by simp [kbpKbPolicy, h, hm], by simp [krKrpPolicy, h, hm],
      by simp [kpKpPolicy, h, hm], by simp [krKpPolicy, h, hm],
      by simp [krpKrPolicy, h, hm], by simp [selectComputerMove, h, hm]⟩
  · intro td moves h1 h2 h3
    have hmem : ∀ {c : Cand} {dtmOf : TbMove → Option Nat},
        c ∈ stage2 (moves.map (mkCand dtmOf)) →
        c.original ∈ moves ∧ moves.any (fun x => x.uci == c.original.uci) = true := by
      intro c dtmOf hc
      obtain ⟨hin, _⟩ := stage2_mem hc
      obtain ⟨_, hmv⟩ := outcome_of_mem_map hin
      exact ⟨hmv, List.any_eq_true.mpr ⟨c.original, hmv, by simp⟩⟩
    refine ⟨?_, ?_, ?_, ?_, ?_, ?_⟩
    · obtain ⟨c, hcmem, hres⟩ := kbpKb_sel a1 input td moves h1 h2 h3
      obtain ⟨hmv, hany⟩ := hmem hcmem
      exact ⟨c.original, hres, hmv, hany⟩
    · obtain ⟨c, hcmem, hres⟩ := krKrp_sel a2 input td moves h1 h2 h3
      obtain ⟨hmv, hany⟩ := hmem hcmem
      exact ⟨c.original, hres, hmv, hany⟩
    · obtain ⟨c, hcmem, hres⟩ := kpKp_sel a3 input td moves h1 h2 h3
      obtain ⟨hmv, hany⟩ := hmem hcmem
      exact ⟨c.original, hres, hmv, hany⟩
    · obtain ⟨c, hcmem, hres⟩ := krKp_sel a4 input td moves h1 h2 h3
      obtain ⟨hmv, hany⟩ := hmem hcmem
      exact ⟨c.original, hres, hmv, hany⟩
    · obtain ⟨c, hcmem, hres⟩ := krpKr_sel a5 input td moves h1 h2 h3
      obtain ⟨hmv, hany⟩ := hmem hcmem
      exact ⟨c.original, hres, hmv, hany⟩
    · exact selectComputerMove_mem pol input td moves h1 h2 h3

/-- Concrete oracle moves for the anti-collapse scenario: three moves
that lose for the mover (category `win` for the opponent) with
distances 20, 19 and 3. -/
def mLoss20 : TbMove :=
  { uci := "a2a3", san := "Ka3", category := some "win", dtm := some 20,
    checkmate := false }

/-- The distance-19 losing move of the anti-collapse scenario. -/
def mLoss19 : TbMove :=
  { uci := "a2b2", san := "Kb2", category := some "win", dtm := some 19,
    checkmate := false }

/-- The distance-3 losing move of the anti-collapse scenario. -/
def mLoss3 : TbMove :=
  { uci := "a2b1", san := "Kb1", category := some "win", dtm := some 3,
    checkmate := false }

/-- Input whose oracle moves all lose with distances 20, 19, 3. -/
def lossInput : Input :=
  { fen := "8/8/8/8/8/1r6/k7/2K5 b - - 0 1", endgameKey := "X",
    tbData := some { moves := some [mLoss20, mLoss19, mLoss3] } }

/-- C3: the LOSS anti-collapse filter.  (a) The distinct defined
normalized DTM values in descending order are `squeeze` of the code's
descending value list: strictly descending, with the same members; the
code's adjacent-pair threshold scan computes the same threshold on
either list (the value above the first gap of at least `GAP_BREAK` = 12
half-moves, or the maximum if no such gap exists).  (b) `lossFilter`
replaces the candidate set by the candidates with a defined dtm at or
above that threshold exactly when that restriction is non-empty.
(c) For LOSS distances {20, 19, 3} the surviving set is exactly the
distance-20 and distance-19 candidates, and every policy — whatever the
feature extractor does — returns one of those two moves, never the
distance-3 move. -/
theorem C3_anti_collapse :
    (∀ values : List Nat,
      List.Chain' (fun a b => b < a) (squeeze (sortDescNat values)) ∧
      (∀ v, v ∈ squeeze (sortDescNat values) ↔ v ∈ values) ∧
      gapThreshold (sortDescNat values) = gapThreshold (squeeze (sortDescNat values))) ∧
    (∀ C : List Cand,
      (gapThreshold (sortDescNat (C.filterMap (fun c => c.dtm))) = none →
        lossFilter C = C) ∧
      (∀ t, gapThreshold (sortDescNat (C.filterMap (fun c => c.dtm))) = some t →
        (C.filter (fun c => match c.dtm with
            | some d => decide (t ≤ d) | none => false) ≠ [] →
          lossFilter C = C.filter (fun c => match c.dtm with
            | some d => decide (t ≤ d) | none => false)) ∧
        (C.filter (fun c => match c.dtm with
            | some d => decide (t ≤ d) | none => false) = [] →
          lossFilter C = C))) ∧
    stage2 (kbpKbCandidates [mLoss20, mLoss19, mLoss3]) =
      [mkCand dtmPlain mLoss20, mkCand dtmPlain mLoss19] ∧
    stage2 (krKrpCandidates [mLoss20, mLoss19, mLoss3]) =
      [mkCand dtmCm mLoss20, mkCand dtmCm mLoss19] ∧
    (∀ a1 : String → Option KbpKbF,
      ∃ m, kbpKbPolicy a1 lossInput = some m ∧ (m = mLoss20 ∨ m = mLoss19)) ∧
    (∀ a2 : String → Option KrKrpF,
      ∃ m, krKrpPolicy a2 lossInput = some m ∧ (m = mLoss20 ∨ m = mLoss19)) ∧
    (∀ a3 : String → Option KpKpF,
      ∃ m, kpKpPolicy a3 lossInput = some m ∧ (m = mLoss20 ∨ m = mLoss19)) ∧
    (∀ a4 : String → Option KrKpF,
      ∃ m, krKpPolicy a4 lossInput = some m ∧ (m = mLoss20 ∨ m = mLoss19)) ∧
    (∀ a5 : String → Option KrpKrF,
      ∃ m, krpKrPolicy a5 lossInput = some m ∧ (m = mLoss20 ∨ m = mLoss19)) := by
  have hplain : stage2 (kbpKbCandidates [mLoss20, mLoss19, mLoss3]) =
      [mkCand dtmPlain mLoss20, mkCand dtmPlain mLoss19] := by decide
  have hcm : stage2 (krKrpCandidates [mLoss20, mLoss19, mLoss3]) =
      [mkCand dtmCm mLoss20, mkCand dtmCm mLoss19] := by decide
  have hfromPlain : ∀ {c : Cand},
      c ∈ stage2 (kbpKbCandidates [mLoss20, mLoss19, mLoss3]) →
      c.original = mLoss20 ∨ c.original = mLoss19 := by
    intro c hc
    rw [hplain] at hc
    rcases List.mem_cons.mp hc with rfl | hc2
    · exact Or.inl rfl
    · rcases List.mem_cons.mp hc2 with rfl | hc3
      · exact Or.inr rfl
      · simp at hc3
  have hfromCm : ∀ {c : Cand},
      c ∈ stage2 (krKrpCandidates [mLoss20, mLoss19, mLoss3]) →
      c.original = mLoss20 ∨ c.original = mLoss19 := by
    intro c hc
    rw [hcm] at hc
    rcases List.mem_cons.mp hc with rfl | hc2
    · exact Or.inl rfl
    · rcases List.mem_cons.mp hc2 with rfl | hc3
      · exact Or.inr rfl
      · simp at hc3
  refine ⟨?_, ?_, hplain, hcm, ?_, ?_, ?_, ?_, ?_⟩
  · intro values
    have hchain := sortDescNat_chain values
    have hchain2 : List.Chain' (fun a b : Nat => b ≤ a) (sortDescNat values) := hchain
    refine ⟨squeeze_strict_desc hchain2, ?_, ?_⟩
    · intro v
      exact mem_squeeze.trans (List.perm_insertionSort _ _).mem_iff
    · cases hval : sortDescNat values with
      | nil => simp [gapThreshold, hval, squeeze]
      | cons d rest =>
        rcases squeeze_cons d rest with ⟨t, ht⟩
        rw [gapThreshold, ht, gapThreshold, ← ht, findGap_squeeze]
  · intro C
    exact lossFilter_char C
  · intro a1
    obtain ⟨c, hcmem, hres⟩ := kbpKb_sel a1 lossInput _ _ rfl rfl (by simp)
    exact ⟨c.original, hres, hfromPlain hcmem⟩
  · intro a2
    obtain ⟨c, hcmem, hres⟩ := krKrp_sel a2 lossInput _ _ rfl rfl (by simp)
    exact ⟨c.original, hres, hfromCm hcmem⟩
  · intro a3
    obtain ⟨c, hcmem, hres⟩ := kpKp_sel a3 lossInput _ _ rfl rfl (by simp)
    exact ⟨c.original, hres, hfromCm hcmem⟩
  · intro a4
    obtain ⟨c, hcmem, hres⟩ := krKp_sel a4 lossInput _ _ rfl rfl (by simp)
    exact ⟨c.original, hres, hfromCm hcmem⟩
  · intro a5
    obtain ⟨c, hcmem, hres⟩ := krpKr_sel a5 lossInput _ _ rfl rfl (by simp)
    exact ⟨c.original, hres, hfromPlain hcmem⟩

/-- C4: when the best outcome class present is WIN, every policy
returns a WIN move of minimum normalized distance-to-mate (a missing
distance counting as `+∞`, via `dtmVal`), among equal-distance WIN
candidates the returned move's `uci` is least in the string order, and
the result does not depend on the feature extractor (no feature
extraction or cascade stage runs in the WIN case). -/
theorem C4_win_minimality
    (a1 : String → Option KbpKbF) (a2 : String → Option KrKrpF)
    (a3 : String → Option KpKpF) (a4 : String → Option KrKpF)
    (a5 : String → Option KrpKrF) (input : Input) (td : TbData)
    (moves : List TbMove) (h1 : input.tbData = some td)
    (h2 : td.moves = some moves)
    (hWin : moves.any (fun m => getMoverResult m.category == Outcome.WIN) = true) :
    ((∃ m, kbpKbPolicy a1 input = some m ∧ m ∈ moves ∧
      getMoverResult m.category = Outcome.WIN ∧
      ∀ x ∈ moves, getMoverResult x.category = Outcome.WIN →
        dtmVal (mkCand dtmPlain m) ≤ dtmVal (mkCand dtmPlain x) ∧
        (dtmVal (mkCand dtmPlain x) = dtmVal (mkCand dtmPlain m) → m.uci ≤ x.uci)) ∧
      ∀ b1, kbpKbPolicy b1 input = kbpKbPolicy a1 input) ∧
    ((∃ m, krKrpPolicy a2 input = some m ∧ m ∈ moves ∧
      getMoverResult m.category = Outcome.WIN ∧
      ∀ x ∈ moves, getMoverResult x.category = Outcome.WIN →
        dtmVal (mkCand dtmCm m) ≤ dtmVal (mkCand dtmCm x) ∧
        (dtmVal (mkCand dtmCm x) = dtmVal (mkCand dtmCm m) → m.uci ≤ x.uci)) ∧
      ∀ b2, krKrpPolicy b2 input = krKrpPolicy a2 input) ∧
    ((∃ m, kpKpPolicy a3 input = some m ∧ m ∈ moves ∧
      getMoverResult m.category = Outcome.WIN ∧
      ∀ x ∈ moves, getMoverResult x.category = Outcome.WIN →
        dtmVal (mkCand dtmCm m) ≤ dtmVal (mkCand dtmCm x) ∧
        (dtmVal (mkCand dtmCm x) = dtmVal (mkCand dtmCm m) → m.uci ≤ x.uci)) ∧
      ∀ b3, kpKpPolicy b3 input = kpKpPolicy a3 input) ∧
    ((∃ m, krKpPolicy a4 input = some m ∧ m ∈ moves ∧
      getMoverResult m.category = Outcome.WIN ∧
      ∀ x ∈ moves, getMoverResult x.category = Outcome.WIN →
        dtmVal (mkCand dtmCm m) ≤ dtmVal (mkCand dtmCm x) ∧
        (dtmVal (mkCand dtmCm x) = dtmVal (mkCand dtmCm m) → m.uci ≤ x.uci)) ∧
      ∀ b4, krKpPolicy b4 input = krKpPolicy a4 input) ∧
    ((∃ m, krpKrPolicy a5 input = some m ∧ m ∈ moves ∧
      getMoverResult m.category = Outcome.WIN ∧
      ∀ x ∈ moves, getMoverResult x.category = Outcome.WIN →
        dtmVal (mkCand dtmPlain m) ≤ dtmVal (mkCand dtmPlain x) ∧
        (dtmVal (mkCand dtmPlain x) = dtmVal (mkCand dtmPlain m) → m.uci ≤ x.uci)) ∧
      ∀ b5, krpKrPolicy b5 input = krpKrPolicy a5 input) := by
  have h3 : moves ≠ [] := by
    rcases List.any_eq_true.mp hWin with ⟨x, hx, _⟩
    exact List.ne_nil_of_mem hx
  have hEmp := fun hcontra => h3 (List.isEmpty_iff.mp hcontra)
  have hbeq1 : ((selectTarget (kbpKbCandidates moves)).1 == Outcome.WIN) = true := by
    have h : (selectTarget (kbpKbCandidates moves)).1 = Outcome.WIN :=
      (selectTarget_fst_win (map_any_win dtmPlain moves hWin)).1
    rw [h]
    decide
  have hbeq2 : ((selectTarget (krKrpCandidates moves)).1 == Outcome.WIN) = true := by
    have h : (selectTarget (krKrpCandidates moves)).1 = Outcome.WIN :=
      (selectTarget_fst_win (map_any_win dtmCm moves hWin)).1
    rw [h]
    decide
  have hbeq3 : ((selectTarget (kpKpCandidates moves)).1 == Outcome.WIN) = true := by
    have h : (selectTarget (kpKpCandidates moves)).1 = Outcome.WIN :=
      (selectTarget_fst_win (map_any_win dtmCm moves hWin)).1
    rw [h]
    decide
  have hbeq4 : ((selectTarget (krKpCandidates moves)).1 == Outcome.WIN) = true := by
    have h : (selectTarget (krKpCandidates moves)).1 = Outcome.WIN :=
      (selectTarget_fst_win (map_any_win dtmCm moves hWin)).1
    rw [h]
    decide
  have hbeq5 : ((selectTarget (krpKrCandidates moves)).1 == Outcome.WIN) = true := by
    have h : (selectTarget (krpKrCandidates moves)).1 = Outcome.WIN :=
      (selectTarget_fst_win (map_any_win dtmPlain moves hWin)).1
    rw [h]
    decide
  have hspecP := winBranch_spec dtmPlain moves hWin
  have hspecC := winBranch_spec dtmCm moves hWin
  have hpol1 : ∀ a : String → Option KbpKbF, kbpKbPolicy a input =
      (winSort (selectTarget (kbpKbCandidates moves)).2).head?.map
        (fun c => c.original) := by
    intro a
    simp only [kbpKbPolicy, h1, h2]
    rw [if_neg hEmp, if_pos hbeq1]
  have hpol2 : ∀ a : String → Option KrKrpF, krKrpPolicy a input =
      (winSort (selectTarget (krKrpCandidates moves)).2).head?.map
        (fun c => c.original) := by
    intro a
    simp only [krKrpPolicy, h1, h2]
    rw [if_neg hEmp, if_pos hbeq2]
  have hpol3 : ∀ a : String → Option KpKpF, kpKpPolicy a input =
      (winSort (selectTarget (kpKpCandidates moves)).2).head?.map
        (fun c => c.original) := by
    intro a
    simp only [kpKpPolicy, h1, h2]
    rw [if_neg hEmp, if_pos hbeq3]
  have hpol4 : ∀ a : String → Option KrKpF, krKpPolicy a input =
      (winSort (selectTarget (krKpCandidates moves)).2).head?.map
        (fun c => c.original) := by
    intro a
    simp only [krKpPolicy, h1, h2]
    rw [if_neg hEmp, if_pos hbeq4]
  have hpol5 : ∀ a : String → Option KrpKrF, krpKrPolicy a input =
      (winSort (selectTarget (krpKrCandidates moves)).2).head?.map
        (fun c => c.original) := by
    intro a
    simp only [krpKrPolicy, h1, h2]
    rw [if_neg hEmp, if_pos hbeq5]
  refine ⟨⟨?_, ?_⟩, ⟨?_, ?_⟩, ⟨?_, ?_⟩, ⟨?_, ?_⟩, ⟨?_, ?_⟩⟩
  · rw [hpol1 a1]
    exact hspecP
  · intro b1
    rw [hpol1 b1, hpol1 a1]
  · rw [hpol2 a2]
    exact hspecC
  · intro b2
    rw [hpol2 b2, hpol2 a2]
  · rw [hpol3 a3]
    exact hspecC
  · intro b3
    rw [hpol3 b3, hpol3 a3]
  · rw [hpol4 a4]
    exact hspecC
  · intro b4
    rw [hpol4 b4, hpol4 a4]
  · rw [hpol5 a5]
    exact hspecP
  · intro b5
    rw [hpol5 b5, hpol5 a5]

/-- C5: every hard-constraint and preference stage of the cascades has
the non-emptying shape `keepIf`: for any candidate set and any stage
predicate, the stage replaces the set by the subset satisfying the
predicate exactly when that subset is non-empty and leaves the set
unchanged otherwise, so a non-empty set stays non-empty; consequently
every policy's full cascade is non-emptying as well. -/
theorem C5_non_emptying_cascade :
    (∀ (α : Type) (p : α → Bool) (C : List α),
      (C.filter p ≠ [] → keepIf p C = C.filter p) ∧
      (C.filter p = [] → keepIf p C = C) ∧
      (C ≠ [] → keepIf p C ≠ [])) ∧
    (∀ (target : Outcome) (C : List (ACand KbpKbF)),
      C ≠ [] → kbpKbCascade target C ≠ []) ∧
    (∀ C : List (ACand KrKrpF), C ≠ [] → krKrpCascade C ≠ []) ∧
    (∀ C : List (ACand KpKpF), C ≠ [] → kpKpCascade C ≠ []) ∧
    (∀ (target : Outcome) (C : List (ACand KrKpF)),
      C ≠ [] → krKpCascade target C ≠ []) ∧
    (∀ (target : Outcome) (C : List (ACand KrpKrF)),
      C ≠ [] → krpKrCascade target C ≠ []) :=
  ⟨fun _ p _ => ⟨keepIf_eq_filter, keepIf_eq_self, keepIf_ne_nil p⟩,
    fun _ _ h => kbpKbCascade_ne_nil h,
    fun _ h => krKrpCascade_ne_nil h,
    fun _ h => kpKpCascade_ne_nil h,
    fun _ _ h => krKpCascade_ne_nil h,
    fun _ _ h => krpKrCascade_ne_nil h⟩

/-- A sample feature record for the KBP-KB extractor, used by the C5
witness. -/
def sampleKbpKbF : KbpKbF :=
  { pawnGone := false, pawnRank := some 5, isRookPawn := false,
    wrongBishopForRookPawn := false, promoSq := some "e8", blockSq := some "e7",
    pawnCanAdvanceNow := true, pawnPromotesNow := false, BBControlsPawn := false,
    BBControlsBlock := true, BBControlsPromo := false, WBControlsPromo := true,
    BKDistToPawn := (2 : Nat), BKDistToPromo := (3 : Nat), BKDistToBlock := (2 : Nat),
    BKOnBlock := false, BKOnPromo := false, threatensPawn := false,
    attacksWhiteBishop := false, SafeCheck := false, bishopHang := false,
    bishopLost := false, bishopTradeOffered := false, Useful := true,
    phase := "B", whiteMovesCount := 11 }

/-- A sample analyzed candidate for the C5 witness. -/
def sampleKbpKbA : ACand KbpKbF :=
  { cand := mkCand dtmPlain mLoss20, features := sampleKbpKbF }

/-- Witness for C5: the `keepIf` stage at a concrete predicate and set,
and a concrete cascade run, via the theorem. -/
theorem C5_witness :
    keepIf (fun n => n % 2 == 0) [1, 2, 3, 4] = [2, 4] ∧
    keepIf (fun n => n % 5 == 0) [1, 2, 3, 4] = [1, 2, 3, 4] ∧
    kbpKbCascade Outcome.DRAW [sampleKbpKbA] ≠ [] := by
  refine ⟨?_, ?_, ?_⟩
  · rw [(C5_non_emptying_cascade.1 Nat (fun n => n % 2 == 0) [1, 2, 3, 4]).1 (by decide)]
    decide
  · rw [(C5_non_emptying_cascade.1 Nat (fun n => n % 5 == 0) [1, 2, 3, 4]).2.1 (by decide)]
  · exact C5_non_emptying_cascade.2.1 Outcome.DRAW [sampleKbpKbA] (by simp)

/-- C6: if the specialised policy for the endgame key throws, returns
`null`, or returns a move whose `uci` is not in `tbData.moves`, then
`selectComputerMove` swallows the failure and returns the default
policy's choice: the first move of `tbData.moves`, except that when
that first move's category maps to a mover draw, the first
draw-category move whose SAN is present and contains no capture marker
`x` is returned instead, if one exists. -/
theorem C6_fallback_to_default (pol : Input → Except String (Option TbMove))
    (input : Input) (td : TbData) (first : TbMove) (rest : List TbMove)
    (h1 : input.tbData = some td) (h2 : td.moves = some (first :: rest))
    (hfail : (∃ e, pol input = Except.error e) ∨ pol input = Except.ok none ∨
      (∃ m, pol input = Except.ok (some m) ∧ ∀ x ∈ first :: rest, x.uci ≠ m.uci)) :
    selectComputerMove pol input = defaultPolicy input ∧
    (tbMoveCategoryToMoverWdl first.category ≠ 0 → defaultPolicy input = some first) ∧
    (tbMoveCategoryToMoverWdl first.category = 0 →
      (∀ nc, ((first :: rest).filter
          (fun m => tbMoveCategoryToMoverWdl m.category == 0)).find?
          (fun m => m.san != "" && !(strIncludes m.san "x")) = some nc →
          defaultPolicy input = some nc) ∧
      (((first :: rest).filter
          (fun m => tbMoveCategoryToMoverWdl m.category == 0)).find?
          (fun m => m.san != "" && !(strIncludes m.san "x")) = none →
          defaultPolicy input = some first)) :=
  ⟨selectComputerMove_falls_back pol input td (first :: rest) h1 h2 (by simp) hfail,
    (defaultPolicy_spec input td first rest h1 h2).1,
    (defaultPolicy_spec input td first rest h1 h2).2⟩

/-- A single drawn oracle move, for concrete witnesses. -/
def oneDraw : TbMove :=
  { uci := "e1e2", san := "Ke2", category := some "draw", dtm := none,
    checkmate := false }

/-- Input carrying only `oneDraw`. -/
def drawInput : Input :=
  { fen := "8/8/8/4k3/8/8/4p3/4K3 w - - 0 1", endgameKey := "KP_KP",
    tbData := some { moves := some [oneDraw] } }

/-- Witness for C1 at `drawInput` with the empty feature extractors. -/
theorem C1_witness :
    drawInput.tbData = some { moves := some [oneDraw] } ∧
    ([oneDraw] : List TbMove) ≠ [] ∧
    (∃ m, kbpKbPolicy (fun _ => none) drawInput = some m ∧
      getMoverResult m.category = bestClass [oneDraw]) :=
  ⟨rfl, by simp,
    (C1_best_class (fun _ => none) (fun _ => none) (fun _ => none) (fun _ => none)
      (fun _ => none) drawInput { moves := some [oneDraw] } [oneDraw]
      rfl rfl (by simp)).1⟩

/-- Witness for C2 at `drawInput` with a policy that returns no move. -/
theorem C2_witness :
    drawInput.tbData = some { moves := some [oneDraw] } ∧
    ([oneDraw] : List TbMove) ≠ [] ∧
    (∃ m, selectComputerMove (fun _ => Except.ok none) drawInput = some m ∧
      ([oneDraw] : List TbMove).any (fun x => x.uci == m.uci) = true) :=
  ⟨rfl, by simp,
    ((C2_membership_and_null (fun _ => none) (fun _ => none) (fun _ => none)
      (fun _ => none) (fun _ => none) (fun _ => Except.ok none)
      drawInput).2.2.2 { moves := some [oneDraw] } [oneDraw]
      rfl rfl (by simp)).2.2.2.2.2⟩

/-- Witness for C3: the anti-collapse filter at the concrete candidate
list with distances {20, 19, 3} keeps exactly the plateau {20, 19}. -/
theorem C3_witness :
    gapThreshold (sortDescNat ((kbpKbCandidates
      [mLoss20, mLoss19, mLoss3]).filterMap (fun c => c.dtm))) = some 19 ∧
    lossFilter (kbpKbCandidates [mLoss20, mLoss19, mLoss3]) =
      (kbpKbCandidates [mLoss20, mLoss19, mLoss3]).filter
        (fun c => match c.dtm with | some d => decide (19 ≤ d) | none => false) ∧
    (∃ m, kbpKbPolicy (fun _ => none) lossInput = some m ∧
      (m = mLoss20 ∨ m = mLoss19)) :=
  ⟨by decide,
    (((C3_anti_collapse.2.1 (kbpKbCandidates [mLoss20, mLoss19, mLoss3])).2
      19 (by decide)).1 (by decide)),
    C3_anti_collapse.2.2.2.2.1 (fun _ => none)⟩

/-- Three winning oracle moves with distances 5, 3, 3: the crafted WIN
minimality scenario (the lexicographically smaller of the two
distance-3 identifiers must be chosen). -/
def mWin5 : TbMove :=
  { uci := "a1a2", san := "Ka2", category := some "loss", dtm := some 5,
    checkmate := false }

/-- The distance-3 winning move with the larger identifier. -/
def mWin3c : TbMove :=
  { uci := "c1c2", san := "Kc2", category := some "loss", dtm := some 3,
    checkmate := false }

/-- The distance-3 winning move with the smaller identifier. -/
def mWin3b : TbMove :=
  { uci := "b1b2", san := "Kb2", category := some "loss", dtm := some 3,
    checkmate := false }

/-- Input carrying the three winning moves. -/
def winInput : Input :=
  { fen := "8/8/8/8/8/2q5/k7/2K5 b - - 0 1", endgameKey := "X",
    tbData := some { moves := some [mWin5, mWin3c, mWin3b] } }

/-- Witness for C4 at `winInput`. -/
theorem C4_witness :
    winInput.tbData = some { moves := some [mWin5, mWin3c, mWin3b] } ∧
    ([mWin5, mWin3c, mWin3b] : List TbMove).any
      (fun m => getMoverResult m.category == Outcome.WIN) = true ∧
    (∃ m, kbpKbPolicy (fun _ => none) winInput = some m ∧
      m ∈ ([mWin5, mWin3c, mWin3b] : List TbMove) ∧
      getMoverResult m.category = Outcome.WIN ∧
      ∀ x ∈ ([mWin5, mWin3c, mWin3b] : List TbMove),
        getMoverResult x.category = Outcome.WIN →
        dtmVal (mkCand dtmPlain m) ≤ dtmVal (mkCand dtmPlain x) ∧
        (dtmVal (mkCand dtmPlain x) = dtmVal (mkCand dtmPlain m) → m.uci ≤ x.uci)) :=
  ⟨rfl, by decide,
    (C4_win_minimality (fun _ => none) (fun _ => none) (fun _ => none) (fun _ => none)
      (fun _ => none) winInput { moves := some [mWin5, mWin3c, mWin3b] }
      [mWin5, mWin3c, mWin3b] rfl rfl (by decide)).1.1⟩

/-- Witness for C6: a policy that always throws, at `drawInput`. -/
theorem C6_witness :
    drawInput.tbData = some { moves := some [oneDraw] } ∧
    selectComputerMove (fun _ => Except.error "boom") drawInput =
      defaultPolicy drawInput :=
  ⟨rfl,
    (C6_fallback_to_default (fun _ => Except.error "boom") drawInput
      { moves := some [oneDraw] } oneDraw [] rfl rfl
      (Or.inl ⟨"boom", rfl⟩)).1⟩
